import Mathlib

/-!
# vkbd: virtual keyboard library (`src/vkbd.c`, `src/vkbd.h`) and its event
listener (`src/event_listener.c`, `src/event_listener.h`)

A shallow embedding of the injection path of the virtual keyboard library and
of the capture side that feeds it.

* C structures become Lean structures with the same field names.
* Function pointers and `void *` values are machine words (`Nat`, `0` is `NULL`).
* The context, listener and path pointers handed to every function are valid
  ones: the `!ctx`, `!listener` and `!device_path` guards of the C code are not
  part of the model.
* System calls are modelled by an environment `Env` (what the kernel answers)
  and a `World` (what the process has done so far): every call of `write`
  consumes the next answer of `Env.write` and is recorded, with its answer, in
  `World.trace`.
* Callbacks are external code. What an observer does when it is invoked is
  given by the environment as a program over the injection primitives
  (`ObserverProg`): it may print, call `vkbd_send_key` and `vkbd_sync` on the
  same context, and go on according to what these return. An invocation is
  recorded in the trace with its arguments, followed by what the observer does.
  Observers are taken not to change the callback table and not to call
  `vkbd_process_key` themselves.
* Loops whose exit depends on what the kernel answers are given fuel; running
  out of fuel is `none`, and the theorems say how much fuel is enough.
* The stream the device receives is read off the trace: a `write` that
  returned `ret ≥ 0` has handed over the first `ret` bytes of its buffer.
-/

namespace Vkbd

/-! ## Constants -/

/-- `MAX_CALLBACKS` of `vkbd.h`. -/
def MAX_CALLBACKS : Nat := 16

/-- `EV_SYN` of `linux/input-event-codes.h`. -/
def EV_SYN : Nat := 0

/-- `EV_KEY` of `linux/input-event-codes.h`. -/
def EV_KEY : Nat := 1

/-- `SYN_REPORT` of `linux/input-event-codes.h`. -/
def SYN_REPORT : Nat := 0

/-- `EINTR` of `errno.h` (Linux). -/
def EINTR : Nat := 4

/-- `EAGAIN` of `errno.h` (Linux). -/
def EAGAIN : Nat := 11

/-! ## Data model -/

/-- `struct timeval`. -/
structure timeval where
  tv_sec : Int
  tv_usec : Int
deriving DecidableEq, Repr

/-- `struct input_event` of `linux/input.h`. -/
structure input_event where
  time : timeval
  type : Nat
  code : Nat
  value : Int
deriving DecidableEq, Repr

/-- `vkbd_device_t` of `vkbd.h`. -/
structure vkbd_device_t where
  fd : Int
  name : String
  initialized : Bool
deriving DecidableEq, Repr

/-- `vkbd_handler_t` of `vkbd.h`: a callback pointer, its user data, the active flag. -/
structure vkbd_handler_t where
  callback : Nat
  user_data : Nat
  active : Bool
deriving DecidableEq, Repr

/-- A zeroed slot, as left by `memset`. -/
instance : Inhabited vkbd_handler_t := ⟨⟨0, 0, false⟩⟩

/-- `vkbd_context_t` of `vkbd.h`. `handlers` is the array `handlers[MAX_CALLBACKS]`;
`handler_count` is a count that the code starts at `0` and only increments. -/
structure vkbd_context_t where
  device : vkbd_device_t
  handlers : List vkbd_handler_t
  handler_count : Nat
deriving DecidableEq, Repr

/-- The shape the C type gives a context: the array has `MAX_CALLBACKS` slots and
the count does not run past it. -/
def vkbd_context_t.wf (ctx : vkbd_context_t) : Prop :=
  ctx.handlers.length = MAX_CALLBACKS ∧ ctx.handler_count ≤ MAX_CALLBACKS

instance (ctx : vkbd_context_t) : Decidable ctx.wf := by
  unfold vkbd_context_t.wf; exact inferInstance

/-! ## Environment -/

/-- What one call of `write(2)` answers: the return value and, when that is
negative, `errno`. -/
structure WriteOutcome where
  ret : Int
  errno : Nat
deriving DecidableEq, Repr

/-- What an observer does during one invocation: it returns (`done`), prints
and goes on, or calls `vkbd_send_key` or `vkbd_sync` and goes on according to
the value returned. -/
inductive ObserverProg where
  | done
  | printf (msg : String) (next : ObserverProg)
  | send_key (key_code : Nat) (value : Int) (next : Int → ObserverProg)
  | sync (next : Int → ObserverProg)

/-- The side the library does not control: the size of one `struct input_event`
on the platform, the answer to the `n`-th `write` of the process, the time read
by the `n`-th `gettimeofday`, and the code behind the callback pointers:
`observer k callback key_code value user_data` is what the callee does when it
is the `k`-th invocation of the process (counted from 0). -/
structure Env where
  sizeof_input_event : Nat
  write : Nat → WriteOutcome
  gettimeofday : Nat → timeval
  observer : Nat → Nat → Nat → Int → Nat → ObserverProg

/-- An observable action of the process. -/
inductive Effect where
  | call (slot : Nat) (callback : Nat) (key_code : Nat) (value : Int) (user_data : Nat)
  | write (fd : Int) (buf : List input_event) (count : Nat) (ret : Int) (errno : Nat)
  | usleep (usec : Nat)
  | perror (msg : String)
  | fprintf_stderr (msg : String)
  | printf (msg : String)
  | ioctl (fd : Int) (request : String)
  | close (fd : Int)
  | open (path : String) (ret : Int)
  | epoll_ctl (epfd : Int) (fd : Int) (ret : Int)
deriving DecidableEq, Repr

/-- The process side: how many `write` and `gettimeofday` calls were made, the
function-static `error_logged` of `vkbd_process_key`, and the actions so far in
the order they happened. -/
@[ext]
structure World where
  writes : Nat
  ticks : Nat
  error_logged : Bool
  trace : List Effect
deriving DecidableEq, Repr

/-- A process that has done nothing yet. -/
def World.init : World := ⟨0, 0, false, []⟩

/-- Record one action. -/
def World.emit (w : World) (e : Effect) : World :=
  { w with trace := w.trace ++ [e] }

/-- The action is a `write`. -/
def Effect.is_write : Effect → Bool
  | Effect.write _ _ _ _ _ => true
  | _ => false

/-- The action is a callback invocation. -/
def Effect.is_call : Effect → Bool
  | Effect.call _ _ _ _ _ => true
  | _ => false

/-- `write(fd, buf, count)`: the answer comes from the environment. -/
def sys_write (env : Env) (fd : Int) (buf : List input_event) (count : Nat) (w : World) :
    WriteOutcome × World :=
  let o := env.write w.writes
  (o, { w with writes := w.writes + 1,
               trace := w.trace ++ [Effect.write fd buf count o.ret o.errno] })

/-- `gettimeofday(&now, NULL)`. -/
def sys_gettimeofday (env : Env) (w : World) : timeval × World :=
  (env.gettimeofday w.ticks, { w with ticks := w.ticks + 1 })

/-! ## The library -/

/-- `write_event` of `vkbd.c`: one event, retried while interrupted. -/
def write_event (env : Env) (fd : Int) (ev : input_event) : Nat → World → Option (Int × World)
  | 0, _ => none
  | fuel + 1, w =>
    let r := sys_write env fd [ev] env.sizeof_input_event w
    if r.1.ret < 0 ∧ r.1.errno = EINTR then write_event env fd ev fuel r.2
    else some (if r.1.ret = (env.sizeof_input_event : Int) then 0 else -1, r.2)

/-- `vkbd_destroy` of `vkbd.c`. -/
def vkbd_destroy (ctx : vkbd_context_t) (w : World) : vkbd_context_t × World :=
  if !ctx.device.initialized then (ctx, w)
  else
    let r : vkbd_context_t × World :=
      if 0 ≤ ctx.device.fd then
        ({ ctx with device := { ctx.device with fd := -1 } },
          (w.emit (Effect.ioctl ctx.device.fd "UI_DEV_DESTROY")).emit (Effect.close ctx.device.fd))
      else (ctx, w)
    ({ r.1 with device := { r.1.device with initialized := false } },
      r.2.emit (Effect.printf "Virtual keyboard destroyed\n"))

/-- `vkbd_send_key` of `vkbd.c`. -/
def vkbd_send_key (env : Env) (fuel : Nat) (ctx : vkbd_context_t) (key_code : Nat) (value : Int)
    (w : World) : Option (Int × World) :=
  if !ctx.device.initialized then
    some (-1, w.emit (Effect.fprintf_stderr "vkbd_send_key: Device not initialized\n"))
  else
    let t := sys_gettimeofday env w
    let ev : input_event := ⟨t.1, EV_KEY, key_code, value⟩
    match write_event env ctx.device.fd ev fuel t.2 with
    | none => none
    | some (r, w1) =>
      if r < 0 then
        some (-1, w1.emit (Effect.perror "vkbd_send_key: Failed to write key event"))
      else some (0, w1)

/-- `vkbd_sync` of `vkbd.c`. -/
def vkbd_sync (env : Env) (fuel : Nat) (ctx : vkbd_context_t) (w : World) : Option (Int × World) :=
  if !ctx.device.initialized then
    some (-1, w.emit (Effect.fprintf_stderr "vkbd_sync: Device not initialized\n"))
  else
    let t := sys_gettimeofday env w
    let ev : input_event := ⟨t.1, EV_SYN, SYN_REPORT, 0⟩
    match write_event env ctx.device.fd ev fuel t.2 with
    | none => none
    | some (r, w1) =>
      if r < 0 then
        some (-1, w1.emit (Effect.perror "vkbd_sync: Failed to write sync event"))
      else some (0, w1)

/-- `vkbd_register_callback` of `vkbd.c`. -/
def vkbd_register_callback (ctx : vkbd_context_t) (callback : Nat) (user_data : Nat) (w : World) :
    Int × vkbd_context_t × World :=
  if callback = 0 then
    (-1, ctx, w.emit (Effect.fprintf_stderr "vkbd_register_callback: NULL callback\n"))
  else if ctx.handler_count ≥ MAX_CALLBACKS then
    (-1, ctx, w.emit (Effect.fprintf_stderr "vkbd_register_callback: Too many callbacks\n"))
  else
    let handler_id := ctx.handler_count
    (handler_id,
      { ctx with handlers := ctx.handlers.set handler_id ⟨callback, user_data, true⟩,
                 handler_count := ctx.handler_count + 1 },
      w)

/-- `vkbd_unregister_callback` of `vkbd.c`. -/
def vkbd_unregister_callback (ctx : vkbd_context_t) (handler_id : Int) (w : World) :
    Int × vkbd_context_t × World :=
  if handler_id < 0 ∨ handler_id ≥ (ctx.handler_count : Int) then
    (-1, ctx, w.emit (Effect.fprintf_stderr "vkbd_unregister_callback: Invalid handler ID\n"))
  else
    let h := ctx.handlers[handler_id.toNat]?.getD default
    (0,
      { ctx with handlers := ctx.handlers.set handler_id.toNat { h with active := false } },
      w)

/-- How the retry loop of `vkbd_process_key` is left: by its `return 0`, or by a
`break` with the last value of `ret`. -/
inductive LoopExit where
  | returned (r : Int)
  | broke (ret : Int)
deriving DecidableEq, Repr

/-- The `do { ... } while (1)` of `vkbd_process_key`; `retry` is the counter of
the same name. -/
def write_loop (env : Env) (fd : Int) (events : List input_event) :
    Nat → Nat → World → Option (LoopExit × World)
  | 0, _, _ => none
  | fuel + 1, retry, w =>
    let r := sys_write env fd events (2 * env.sizeof_input_event) w
    if r.1.ret = ((2 * env.sizeof_input_event : Nat) : Int) then
      some (LoopExit.returned 0, r.2)
    else if r.1.ret < 0 ∧ (r.1.errno = EINTR ∨ r.1.errno = EAGAIN) then
      if retry + 1 > 10 then
        if retry + 1 > 100 then some (LoopExit.broke r.1.ret, r.2.emit (Effect.usleep 100))
        else write_loop env fd events fuel (retry + 1) (r.2.emit (Effect.usleep 100))
      else write_loop env fd events fuel (retry + 1) r.2
    else some (LoopExit.broke r.1.ret, r.2)

/-- An observer at work: its program is run against the library, on the
context the callback table belongs to. `none` when a call it makes does not
return. -/
def run_observer (env : Env) (fuel : Nat) (ctx : vkbd_context_t) :
    ObserverProg → World → Option World
  | ObserverProg.done, w => some w
  | ObserverProg.printf msg next, w =>
    run_observer env fuel ctx next (w.emit (Effect.printf msg))
  | ObserverProg.send_key key_code value next, w =>
    match vkbd_send_key env fuel ctx key_code value w with
    | none => none
    | some (r, w1) => run_observer env fuel ctx (next r) w1
  | ObserverProg.sync next, w =>
    match vkbd_sync env fuel ctx w with
    | none => none
    | some (r, w1) => run_observer env fuel ctx (next r) w1

/-- The body of the callback `for` loop of `vkbd_process_key` at index `i`:
the call through the function pointer of an active slot is recorded, and the
callee runs. -/
def invoke_handler (env : Env) (fuel : Nat) (ctx : vkbd_context_t) (key_code : Nat)
    (value : Int) (w : World) (i : Nat) : Option World :=
  let h := ctx.handlers[i]?.getD default
  if h.active then
    run_observer env fuel ctx
      (env.observer (w.trace.filter Effect.is_call).length h.callback key_code value
        h.user_data)
      (w.emit (Effect.call i h.callback key_code value h.user_data))
  else some w

/-- The callback `for` loop of `vkbd_process_key` over the indices `l`. -/
def invoke_handlers (env : Env) (fuel : Nat) (ctx : vkbd_context_t) (key_code : Nat)
    (value : Int) : List Nat → World → Option World
  | [], w => some w
  | i :: l, w =>
    match invoke_handler env fuel ctx key_code value w i with
    | none => none
    | some w1 => invoke_handlers env fuel ctx key_code value l w1

/-- The array `events[2]` of `vkbd_process_key`: the key event and the sync
event, both stamped `now`. -/
def key_events (now : timeval) (key_code : Nat) (value : Int) : List input_event :=
  [⟨now, EV_KEY, key_code, value⟩, ⟨now, EV_SYN, SYN_REPORT, 0⟩]

/-- `vkbd_process_key` of `vkbd.c`. -/
def vkbd_process_key (env : Env) (fuel : Nat) (ctx : vkbd_context_t) (key_code : Nat)
    (value : Int) (w : World) : Option (Int × World) :=
  if !ctx.device.initialized then some (-1, w)
  else
    let count := ctx.handler_count
    match invoke_handlers env fuel ctx key_code value (List.range count) w with
    | none => none
    | some w1 =>
      let t := sys_gettimeofday env w1
      let now := t.1
      let events := key_events now key_code value
      match write_loop env ctx.device.fd events fuel 0 t.2 with
      | none => none
      | some (LoopExit.returned r, w2) => some (r, w2)
      | some (LoopExit.broke ret, w2) =>
        if ret < 0 then
          if !w2.error_logged then
            some (-1, { w2.emit (Effect.perror "vkbd_process_key: write failed") with
                          error_logged := true })
          else some (-1, w2)
        else some (0, w2)

/-! ## The event listener (`src/event_listener.c`, `src/event_listener.h`)

The answers of the kernel to the calls one `event_listener_add_device` makes
are an argument of the function (`DeviceAnswer`), the directory read by
`event_listener_auto_detect` is the list of its entries, each with the answers
for the device it names, and what `event_listener_run` meets at each turn of
its loop is a `Wakeup`. The capability and name queries only read and are not
recorded in the trace. A C string handed in is a `String`; the `path` and
`name` buffers of a device slot hold bytes. -/

/-- `MAX_INPUT_DEVICES` of `event_listener.h`. -/
def MAX_INPUT_DEVICES : Nat := 16

/-- `EV_MAX` of `linux/input-event-codes.h`. -/
def EV_MAX : Nat := 0x1f

/-- `KEY_MAX` of `linux/input-event-codes.h`. -/
def KEY_MAX : Nat := 0x2ff

/-- `KEY_Q` of `linux/input-event-codes.h`. -/
def KEY_Q : Nat := 16

/-- `KEY_P` of `linux/input-event-codes.h`. -/
def KEY_P : Nat := 25

/-- `input_device_t` of `event_listener.h`. -/
structure input_device_t where
  fd : Int
  path : List UInt8
  name : List UInt8
  active : Bool
deriving DecidableEq, Repr

/-- A zeroed device slot, as left by `memset`. -/
instance : Inhabited input_device_t := ⟨⟨0, [], [], false⟩⟩

/-- `event_listener_t` of `event_listener.h`; `vkbd_ctx` is the stored pointer. -/
structure event_listener_t where
  devices : List input_device_t
  device_count : Nat
  epoll_fd : Int
  running : Bool
  vkbd_ctx : Nat
deriving DecidableEq, Repr

/-- The shape the C type gives a listener: `MAX_INPUT_DEVICES` slots, and a
count that does not run past them. -/
def event_listener_t.wf (l : event_listener_t) : Prop :=
  l.devices.length = MAX_INPUT_DEVICES ∧ l.device_count ≤ MAX_INPUT_DEVICES

instance (l : event_listener_t) : Decidable l.wf := by
  unfold event_listener_t.wf; exact inferInstance

/-- What the kernel answers to the calls of one `event_listener_add_device`:
the result of `open`, result and bitmap of the two `EVIOCGBIT` queries (an
array of `unsigned long` words each), the name written by `EVIOCGNAME` (`none`
when that call fails), the results of `EVIOCGRAB` and of `epoll_ctl`. -/
structure DeviceAnswer where
  open_ret : Int
  evbit_ret : Int
  evbit : List Nat
  keybit_ret : Int
  keybit : List Nat
  name : Option String
  grab_ret : Int
  epoll_ctl_ret : Int
deriving DecidableEq, Repr

/-- The macro `NBITS(x)`; `long_bits` is `sizeof(long) * 8`. -/
def NBITS (long_bits x : Nat) : Nat := ((x - 1) / long_bits) + 1

/-- The macro `OFFSET(x)`. -/
def OFFSET (long_bits x : Nat) : Nat := x % long_bits

/-- The macro `LONG(x)`. -/
def LONG (long_bits x : Nat) : Nat := x / long_bits

/-- The macro `test_bit(bit, array)`. -/
def test_bit (long_bits bit : Nat) (array : List Nat) : Nat :=
  ((array[LONG long_bits bit]?.getD 0) >>> OFFSET long_bits bit) &&& 1

/-- The loop `for (i = KEY_Q; i <= KEY_P; i++)` of `is_keyboard`, at index `i`
with `n` indices left; the result is `has_keyboard_keys`. -/
def has_keyboard_keys (long_bits : Nat) (keybit : List Nat) : Nat → Nat → Bool
  | 0, _ => false
  | n + 1, i =>
    if test_bit long_bits i keybit ≠ 0 then true
    else has_keyboard_keys long_bits keybit n (i + 1)

/-- `is_keyboard` of `event_listener.c`, on the answers for the device. -/
def is_keyboard (long_bits : Nat) (a : DeviceAnswer) : Bool :=
  if a.evbit_ret < 0 then false
  else if test_bit long_bits EV_KEY a.evbit = 0 then false
  else if a.keybit_ret < 0 then false
  else has_keyboard_keys long_bits a.keybit (KEY_P + 1 - KEY_Q) KEY_Q

/-- `strncpy(dst, src, n)` into a buffer whose byte `n` is zero: the buffer
holds the first `n` bytes of `src`. -/
def strncpy (n : Nat) (src : String) : List UInt8 := src.toUTF8.data.toList.take n

/-- `event_listener_init` of `event_listener.c`; `epoll_create1_ret` is what
`epoll_create1(0)` returns. -/
def event_listener_init (listener : event_listener_t) (vkbd_ctx : Nat) (epoll_create1_ret : Int)
    (w : World) : Int × event_listener_t × World :=
  if vkbd_ctx = 0 then
    (-1, listener, w.emit (Effect.fprintf_stderr "event_listener_init: NULL vkbd_ctx\n"))
  else
    let l : event_listener_t :=
      { devices := List.replicate MAX_INPUT_DEVICES default,
        device_count := 0,
        epoll_fd := epoll_create1_ret,
        running := false,
        vkbd_ctx := vkbd_ctx }
    if l.epoll_fd < 0 then
      (-1, l, w.emit (Effect.perror "event_listener_init: Failed to create epoll"))
    else (0, l, w)

/-- `event_listener_add_device` of `event_listener.c`. -/
def event_listener_add_device (long_bits : Nat) (listener : event_listener_t)
    (device_path : String) (a : DeviceAnswer) (w : World) : Int × event_listener_t × World :=
  if listener.device_count ≥ MAX_INPUT_DEVICES then
    (-1, listener,
      w.emit (Effect.fprintf_stderr "event_listener_add_device: Too many devices\n"))
  else
    let fd := a.open_ret
    let w1 := w.emit (Effect.open device_path fd)
    if fd < 0 then
      (-1, listener, w1.emit (Effect.perror "event_listener_add_device: Failed to open device"))
    else if !is_keyboard long_bits a then
      (-1, listener,
        (w1.emit (Effect.fprintf_stderr ("Device " ++ device_path ++ " is not a keyboard\n"))).emit
          (Effect.close fd))
    else
      let name := a.name.getD "Unknown"
      let w2 := w1.emit (Effect.ioctl fd "EVIOCGRAB, 1")
      let w3 :=
        if a.grab_ret < 0 then
          (w2.emit (Effect.fprintf_stderr
            ("Warning: Could not grab device " ++ device_path ++ " (may need root)\n"))).emit
            (Effect.fprintf_stderr
              "         Events will still be captured but also sent to system\n")
        else w2
      let w4 := w3.emit (Effect.epoll_ctl listener.epoll_fd fd a.epoll_ctl_ret)
      if a.epoll_ctl_ret < 0 then
        (-1, listener,
          (w4.emit (Effect.perror "event_listener_add_device: Failed to add to epoll")).emit
            (Effect.close fd))
      else
        let idx := listener.device_count
        (0,
          { listener with
            devices := listener.devices.set idx
              ⟨fd, strncpy 255 device_path, strncpy 255 name, true⟩,
            device_count := listener.device_count + 1 },
          w4.emit (Effect.printf ("Added keyboard: " ++ name ++ " (" ++ device_path ++ ")\n")))

/-- The body of the `readdir` loop of `event_listener_auto_detect` for one
directory entry: `s` is the local `count` with the listener and the world.
`d_name` holds at most 255 bytes, so the 512 bytes of `path` take the whole of
`"/dev/input/" ++ d_name` and `snprintf` cuts nothing. -/
def auto_detect_entry (long_bits : Nat) (s : Int × event_listener_t × World)
    (entry : String × DeviceAnswer) : Int × event_listener_t × World :=
  if entry.1.data.take 5 ≠ "event".data then s
  else
    let path := "/dev/input" ++ "/" ++ entry.1
    let r := event_listener_add_device long_bits s.2.1 path entry.2 s.2.2
    if r.1 = 0 then (s.1 + 1, r.2) else (s.1, r.2)

/-- `event_listener_auto_detect` of `event_listener.c`; `dir` is `none` when
`opendir` fails, and otherwise the entries `readdir` returns, in order. -/
def event_listener_auto_detect (long_bits : Nat) (listener : event_listener_t)
    (dir : Option (List (String × DeviceAnswer))) (w : World) :
    Int × event_listener_t × World :=
  match dir with
  | none =>
    (-1, listener,
      w.emit (Effect.perror "event_listener_auto_detect: Failed to open /dev/input"))
  | some entries =>
    let s := entries.foldl (auto_detect_entry long_bits) (0, listener, w)
    if s.1 = 0 then (-1, s.2.1, s.2.2.emit (Effect.fprintf_stderr "No keyboard devices found\n"))
    else
      (s.1, s.2.1,
        s.2.2.emit (Effect.printf
          ("Auto-detected " ++ toString s.1 ++ " keyboard device(s)\n")))

/-- `event_listener_stop` of `event_listener.c`. -/
def event_listener_stop (listener : event_listener_t) : event_listener_t :=
  { listener with running := false }

/-- The body of the closing loop of `event_listener_destroy` at index `i`. -/
def destroy_device (s : event_listener_t × World) (i : Nat) : event_listener_t × World :=
  let d := s.1.devices[i]?.getD default
  if d.active ∧ d.fd ≥ 0 then
    ({ s.1 with devices := s.1.devices.set i { d with fd := -1, active := false } },
      (s.2.emit (Effect.ioctl d.fd "EVIOCGRAB, 0")).emit (Effect.close d.fd))
  else s

/-- `event_listener_destroy` of `event_listener.c`. -/
def event_listener_destroy (listener : event_listener_t) (w : World) :
    event_listener_t × World :=
  let l0 := { listener with running := false }
  let s := (List.range l0.device_count).foldl destroy_device (l0, w)
  let s1 : event_listener_t × World :=
    if s.1.epoll_fd ≥ 0 then ({ s.1 with epoll_fd := -1 }, s.2.emit (Effect.close s.1.epoll_fd))
    else s
  ({ s1.1 with device_count := 0 }, s1.2.emit (Effect.printf "Event listener destroyed\n"))

/-- A call of the registry interface. -/
inductive RegistryOp where
  | register (callback : Nat) (user_data : Nat)
  | unregister (handler_id : Int)
deriving DecidableEq, Repr

/-- One call of the registry interface on a context. -/
def apply_op (ctx : vkbd_context_t) (w : World) : RegistryOp → Int × vkbd_context_t × World
  | RegistryOp.register callback user_data => vkbd_register_callback ctx callback user_data w
  | RegistryOp.unregister handler_id => vkbd_unregister_callback ctx handler_id w

/-- A sequence of registry calls on one context, in order, with the value each
call returned. -/
def run_ops : List RegistryOp → vkbd_context_t → World → List Int × vkbd_context_t × World
  | [], ctx, w => ([], ctx, w)
  | op :: ops, ctx, w =>
    let r := apply_op ctx w op
    let rest := run_ops ops r.2.1 r.2.2
    (r.1 :: rest.1, rest.2)

/-- What `event_listener_run` meets at one turn of its `while` loop: whether a
signal handler has called `event_listener_stop` since the last test of
`running`; the result of `epoll_wait` and, when it is negative, `errno`; and
for each entry of the `events` array the descriptor and the events that the
`read` calls on it return in full before the `read` that ends the inner loop. -/
structure Wakeup where
  stop_requested : Bool
  nfds : Int
  errno : Nat
  ready : List (Int × List input_event)

/-- The loop `while (read(fd, &ev, sizeof(ev)) == sizeof(ev))` of
`event_listener_run` over the events `evs` read from one descriptor. Next to
the world it returns the calls of `vkbd_process_key` it made, in order: code,
value and the result, which the loop does not look at. -/
def drain_device (env : Env) (fuel : Nat) (ctx : vkbd_context_t) :
    List input_event → World → Option (List (Nat × Int × Int) × World)
  | [], w => some ([], w)
  | ev :: evs, w =>
    if ev.type = EV_KEY then
      match vkbd_process_key env fuel ctx ev.code ev.value w with
      | none => none
      | some (r, w1) =>
        match drain_device env fuel ctx evs w1 with
        | none => none
        | some (calls, w2) => some ((ev.code, ev.value, r) :: calls, w2)
    else drain_device env fuel ctx evs w

/-- The loop `for (i = 0; i < nfds; i++)` of `event_listener_run` over the
entries of the `events` array. -/
def drain_ready (env : Env) (fuel : Nat) (ctx : vkbd_context_t) :
    List (Int × List input_event) → World → Option (List (Nat × Int × Int) × World)
  | [], w => some ([], w)
  | e :: es, w =>
    match drain_device env fuel ctx e.2 w with
    | none => none
    | some (calls, w1) =>
      match drain_ready env fuel ctx es w1 with
      | none => none
      | some (calls1, w2) => some (calls ++ calls1, w2)

/-- The loop `while (listener->running)` of `event_listener_run`, one `Wakeup`
per turn; `none` when the turns run out before the loop ends. `ctx` is the
context `listener->vkbd_ctx` points to. -/
def run_loop (env : Env) (fuel : Nat) (ctx : vkbd_context_t) :
    List Wakeup → event_listener_t → World →
      Option (Int × event_listener_t × World × List (Nat × Int × Int))
  | [], _, _ => none
  | k :: ks, l, w =>
    let l1 := if k.stop_requested then event_listener_stop l else l
    if !l1.running then some (0, l1, w.emit (Effect.printf "Event listener stopped\n"), [])
    else if k.nfds < 0 then
      if k.errno = EINTR then run_loop env fuel ctx ks l1 w
      else some (-1, l1, w.emit (Effect.perror "event_listener_run: epoll_wait failed"), [])
    else
      match drain_ready env fuel ctx (k.ready.take k.nfds.toNat) w with
      | none => none
      | some (calls, w1) =>
        match run_loop env fuel ctx ks l1 w1 with
        | none => none
        | some (r, l2, w2, calls1) => some (r, l2, w2, calls ++ calls1)

/-- `event_listener_run` from its entry to the `while`, for `device_count ≠ 0`. -/
def run_enter (listener : event_listener_t) (w : World) : event_listener_t × World :=
  ({ listener with running := true },
    w.emit (Effect.printf
      ("Event listener started, monitoring " ++ toString listener.device_count ++
        " device(s)\n")))

/-- `event_listener_run` of `event_listener.c`. -/
def event_listener_run (env : Env) (fuel : Nat) (ctx : vkbd_context_t)
    (listener : event_listener_t) (wakeups : List Wakeup) (w : World) :
    Option (Int × event_listener_t × World × List (Nat × Int × Int)) :=
  if listener.device_count = 0 then
    some (-1, listener,
      w.emit (Effect.fprintf_stderr "event_listener_run: No devices to monitor\n"), [])
  else
    run_loop env fuel ctx wakeups (run_enter listener w).1 (run_enter listener w).2

/-- A run of `vkbd_process_key` calls on one context, one call per `(code, value)`
of the list, in order; the results are collected in the same order. -/
def process_keys (env : Env) (fuel : Nat) (ctx : vkbd_context_t) :
    List (Nat × Int) → World → Option (List Int × World)
  | [], w => some ([], w)
  | k :: ks, w =>
    match vkbd_process_key env fuel ctx k.1 k.2 w with
    | none => none
    | some (r, w1) =>
      match process_keys env fuel ctx ks w1 with
      | none => none
      | some (rs, w2) => some (r :: rs, w2)

/-! ## Observations on a trace -/

/-- The failures the retry loop retries: a negative return with `EINTR` or `EAGAIN`. -/
def WriteOutcome.is_transient (o : WriteOutcome) : Prop :=
  o.ret < 0 ∧ (o.errno = EINTR ∨ o.errno = EAGAIN)

instance (o : WriteOutcome) : Decidable o.is_transient := by
  unfold WriteOutcome.is_transient; exact inferInstance

/-- The record of the write attempt that consumes answer number `s`. -/
def attempt (env : Env) (fd : Int) (events : List input_event) (s : Nat) : Effect :=
  Effect.write fd events (2 * env.sizeof_input_event) (env.write s).ret (env.write s).errno

/-- The records of `n` attempts that fail transiently and are retried, from
answer number `s` on with the counter at `r`: each attempt, and the backoff
after it once the counter has passed 10. -/
def retry_effects (env : Env) (fd : Int) (events : List input_event) :
    Nat → Nat → Nat → List Effect
  | 0, _, _ => []
  | n + 1, s, r =>
    attempt env fd events s ::
      ((if r + 1 > 10 then [Effect.usleep 100] else []) ++
        retry_effects env fd events n (s + 1) (r + 1))

/-- What the device receives through one action: a `write` that returned
`ret ≥ 0` has transferred the first `ret` bytes of its buffer, and the device
takes the whole events among them. -/
def delivered_by (sz : Nat) : Effect → List input_event
  | Effect.write _ buf _ ret _ => if 0 ≤ ret then buf.take (ret.toNat / sz) else []
  | _ => []

/-- The event stream the device has received over a trace. -/
def delivered (sz : Nat) : List Effect → List input_event
  | [] => []
  | e :: es => delivered_by sz e ++ delivered sz es

/-- A key event followed by its `SYN_REPORT`: the sync has value 0 and the
timestamp of the key event. -/
def is_report (k s : input_event) : Bool :=
  k.type == EV_KEY && s.type == EV_SYN && s.code == SYN_REPORT && s.value == 0 && s.time == k.time

/-- The stream is a concatenation of (key, sync) pairs. -/
def paired : List input_event → Bool
  | [] => true
  | [_] => false
  | k :: s :: rest => is_report k s && paired rest

/-- The invocations of one pass of the callback loop over the slots `l`. -/
def call_effects (ctx : vkbd_context_t) (key_code : Nat) (value : Int) (l : List Nat) :
    List Effect :=
  l.filterMap fun i =>
    if (ctx.handlers[i]?.getD default).active then
      some (Effect.call i (ctx.handlers[i]?.getD default).callback key_code value
        (ctx.handlers[i]?.getD default).user_data)
    else none

/-- The value `vkbd_process_key` returns when its last write attempt got the
answer `o`. -/
def result_of (env : Env) (o : WriteOutcome) : Int :=
  if o.ret = ((2 * env.sizeof_input_event : Nat) : Int) then 0 else if o.ret < 0 then -1 else 0

/-- The log line of `vkbd_process_key`. -/
def write_failed : Effect := Effect.perror "vkbd_process_key: write failed"

/-- Attempt `n` (counted from 0) of a call that starts at answer number `s` is
the last one: the `n` attempts before it fail transiently, and it either does
not, or is attempt 100. -/
def decides (env : Env) (s n : Nat) : Prop :=
  n ≤ 100 ∧ (∀ j, j < n → (env.write (s + j)).is_transient) ∧
    (¬ (env.write (s + n)).is_transient ∨ n = 100)

/-- The world a call of `vkbd_process_key (c, v)` leaves when its callback
loop has ended in the world `w` and attempt `n` of its write loop is the last
one. -/
def world_after (env : Env) (ctx : vkbd_context_t) (c : Nat) (v : Int) (w : World) (n : Nat) :
    World :=
  { writes := w.writes + n + 1,
    ticks := w.ticks + 1,
    error_logged := w.error_logged || decide ((env.write (w.writes + n)).ret < 0),
    trace := w.trace ++
      retry_effects env ctx.device.fd (key_events (env.gettimeofday w.ticks) c v) n w.writes 0 ++
      (attempt env ctx.device.fd (key_events (env.gettimeofday w.ticks) c v) (w.writes + n) ::
        if (env.write (w.writes + n)).is_transient then [Effect.usleep 100] else []) ++
      (if (env.write (w.writes + n)).ret < 0 ∧ w.error_logged = false then [write_failed]
        else []) }

/-- The observer makes no call of the library: it prints and returns. -/
def ObserverProg.quiet : ObserverProg → Prop
  | ObserverProg.done => True
  | ObserverProg.printf _ next => next.quiet
  | ObserverProg.send_key _ _ _ => False
  | ObserverProg.sync _ => False

/-- No observer of the environment makes a call of the library. -/
def observers_quiet (env : Env) : Prop :=
  ∀ (k callback key_code : Nat) (value : Int) (user_data : Nat),
    (env.observer k callback key_code value user_data).quiet

/-- The failure `write_event` retries: a negative return with `EINTR`. -/
def WriteOutcome.is_eintr (o : WriteOutcome) : Prop := o.ret < 0 ∧ o.errno = EINTR

instance (o : WriteOutcome) : Decidable o.is_eintr := by
  unfold WriteOutcome.is_eintr; exact inferInstance

/-- From every point on, one of the next `fuel` answers to `write` is not an
interruption. -/
def bounded_eintr (env : Env) (fuel : Nat) : Prop :=
  ∀ s, ∃ j, j < fuel ∧ ¬ (env.write (s + j)).is_eintr

/-- Two conditions under either of which every observer returns: no observer
calls the library, or `write` is never interrupted `fuel` times in a row. -/
def observers_return (env : Env) (fuel : Nat) : Prop :=
  observers_quiet env ∨ bounded_eintr env fuel

/-- The action is a callback invocation or a `printf`: what a call of
`vkbd_process_key` adds before its write loop when its observers are quiet. -/
def Effect.is_silent : Effect → Bool
  | Effect.call _ _ _ _ _ => true
  | Effect.printf _ => true
  | _ => false

/-- The key events among `evs`, as the `(code, value)` arguments of the calls
of `vkbd_process_key` they lead to. -/
def forwarded (evs : List input_event) : List (Nat × Int) :=
  (evs.filter fun e => e.type == EV_KEY).map fun e => (e.code, e.value)

/-- The events `event_listener_run` reads over the turns `ks` of its loop, in
the order read: none from a turn that finds a stop request or a failed
`epoll_wait`, and nothing after a turn that ends the loop. -/
def events_read : List Wakeup → List input_event
  | [] => []
  | k :: ks =>
    if k.stop_requested then []
    else if k.nfds < 0 then (if k.errno = EINTR then events_read ks else [])
    else ((k.ready.take k.nfds.toNat).map fun e => e.2).flatten ++ events_read ks

/-- The turns `ks` hold the one at which the loop of `event_listener_run` is
left: a stop request, or an `epoll_wait` that fails with an error other than
`EINTR`. -/
def loop_ends : List Wakeup → Bool
  | [] => false
  | k :: ks =>
    if k.stop_requested then true
    else if k.nfds < 0 then (if k.errno = EINTR then loop_ends ks else true)
    else loop_ends ks

/-- `KEY_ESC` of `linux/input-event-codes.h`. -/
def KEY_ESC : Nat := 1

/-- `KEY_CAPSLOCK` of `linux/input-event-codes.h`. -/
def KEY_CAPSLOCK : Nat := 58

/-- `KEY_RIGHTCTRL` of `linux/input-event-codes.h`. -/
def KEY_RIGHTCTRL : Nat := 97

/-- `KEY_RIGHTALT` of `linux/input-event-codes.h`. -/
def KEY_RIGHTALT : Nat := 100

/-- The end of `remap_callback`: `vkbd_send_key` then `vkbd_sync`, whatever the
first returns. -/
def send_and_sync (key_code : Nat) (value : Int) : ObserverProg :=
  ObserverProg.send_key key_code value fun _ => ObserverProg.sync fun _ => ObserverProg.done

/-- `remap_callback` of `examples/key_remapper.c`. -/
def remap_callback (key_code : Nat) (value : Int) : ObserverProg :=
  if key_code = KEY_CAPSLOCK then
    ObserverProg.printf "[REMAP] CAPSLOCK -> ESC\n" (send_and_sync KEY_ESC value)
  else if key_code = KEY_RIGHTALT then
    ObserverProg.printf "[REMAP] RIGHTALT -> RIGHTCTRL\n" (send_and_sync KEY_RIGHTCTRL value)
  else send_and_sync key_code value

/-- Observers that return at once. -/
def no_observers : Nat → Nat → Nat → Int → Nat → ObserverProg :=
  fun _ _ _ _ _ => ObserverProg.done

/-- The callback pointer 7 is `remap_callback`; any other callee returns at once. -/
def remap_at_7 : Nat → Nat → Nat → Int → Nat → ObserverProg :=
  fun _ callback key_code value _ =>
    if callback = 7 then remap_callback key_code value else ObserverProg.done

/-- A short count that covers the key event but not its sync. -/
def WriteOutcome.splits_report (sz : Nat) (o : WriteOutcome) : Prop :=
  (sz : Int) ≤ o.ret ∧ o.ret < 2 * (sz : Int)

/-- The number of `write` calls in a trace. -/
def write_attempts (t : List Effect) : Nat := (t.filter Effect.is_write).length

/-- The number of registrations that succeeded (returned an id, not -1) among
the calls `ops` with results `rets`. -/
def registrations : List RegistryOp → List Int → Nat
  | RegistryOp.register _ _ :: ops, r :: rets => (if 0 ≤ r then 1 else 0) + registrations ops rets
  | RegistryOp.unregister _ :: ops, _ :: rets => registrations ops rets
  | _, _ => 0

/-- The slots below `handler_count` whose active flag is set, in increasing order. -/
def active_slots (ctx : vkbd_context_t) : List Nat :=
  (List.range ctx.handler_count).filter fun i => (ctx.handlers[i]?.getD default).active

/-- One invocation per active slot, in increasing slot order, each with the
callback and the user data of its slot. -/
def invocations (ctx : vkbd_context_t) (key_code : Nat) (value : Int) : List Effect :=
  (active_slots ctx).map fun i =>
    Effect.call i (ctx.handlers[i]?.getD default).callback key_code value
      (ctx.handlers[i]?.getD default).user_data

/-- A context with 16 registered callbacks, all of them unregistered again. -/
def full_ctx : vkbd_context_t :=
  ⟨⟨3, "Virtual Keyboard", true⟩, List.replicate 16 ⟨7, 0, false⟩, 16⟩

/-- A context that was never initialised, with one active callback in its table. -/
def dead_ctx : vkbd_context_t :=
  ⟨⟨-1, "", false⟩, ⟨7, 0, true⟩ :: List.replicate 15 default, 1⟩

/-- The number of log lines of `vkbd_process_key` in a trace. -/
def log_lines (t : List Effect) : Nat := t.count write_failed

/-- A call that starts at answer number `s` ends in a terminal write failure:
its last attempt returns a negative value. -/
def terminal_failure (env : Env) (s : Nat) : Prop :=
  ∃ n, decides env s n ∧ (env.write (s + n)).ret < 0

/-- An environment whose every `write` takes the first of the two events only
(24 of 48 bytes). -/
def short_env : Env := ⟨24, fun _ => ⟨24, 0⟩, fun _ => ⟨0, 0⟩, no_observers⟩

/-- An environment whose every `write` takes both events. -/
def good_env : Env := ⟨24, fun _ => ⟨48, 0⟩, fun n => ⟨n, 0⟩, no_observers⟩

/-- An environment whose every `write` fails with `EAGAIN`. -/
def busy_env : Env := ⟨24, fun _ => ⟨-1, EAGAIN⟩, fun _ => ⟨0, 0⟩, no_observers⟩

/-- An environment whose every `write` is interrupted (`EINTR`), with
`remap_callback` behind callback pointer 7. -/
def eintr_remap_env : Env := ⟨24, fun _ => ⟨-1, EINTR⟩, fun n => ⟨n, 0⟩, remap_at_7⟩

/-- An environment whose every `write` fails with `ENODEV` (19), with
`remap_callback` behind callback pointer 7. -/
def gone_remap_env : Env := ⟨24, fun _ => ⟨-1, 19⟩, fun n => ⟨n, 0⟩, remap_at_7⟩

/-- An environment whose every `write` fails with `EAGAIN`, with
`remap_callback` behind callback pointer 7. -/
def busy_remap_env : Env := ⟨24, fun _ => ⟨-1, EAGAIN⟩, fun n => ⟨n, 0⟩, remap_at_7⟩

/-- An environment with `remap_callback` behind callback pointer 7 in which
the second `write` of the process fails with `EAGAIN` and every other `write`
takes its whole buffer (24 bytes for the first, 48 for the later ones). -/
def sync_lost_env : Env :=
  ⟨24, fun n => if n = 0 then ⟨24, 0⟩ else if n = 1 then ⟨-1, EAGAIN⟩ else ⟨48, 0⟩,
    fun n => ⟨n, 0⟩, remap_at_7⟩

/-- An initialised context with no callback registered. -/
def fresh_ctx : vkbd_context_t := ⟨⟨3, "Virtual Keyboard", true⟩, List.replicate 16 default, 0⟩

/-- The action is an `open`. -/
def Effect.is_open : Effect → Bool
  | Effect.open _ _ => true
  | _ => false

/-- A call of the listener interface that changes the device table, with the
answers of the kernel it meets. -/
inductive ListenerOp where
  | init (vkbd_ctx : Nat) (epoll_create1_ret : Int)
  | add_device (device_path : String) (a : DeviceAnswer)
  | auto_detect (dir : Option (List (String × DeviceAnswer)))
  | destroy

/-- One call of the listener interface. -/
def apply_listener_op (long_bits : Nat) (l : event_listener_t) (w : World) :
    ListenerOp → event_listener_t × World
  | ListenerOp.init vkbd_ctx r => (event_listener_init l vkbd_ctx r w).2
  | ListenerOp.add_device device_path a =>
    (event_listener_add_device long_bits l device_path a w).2
  | ListenerOp.auto_detect dir => (event_listener_auto_detect long_bits l dir w).2
  | ListenerOp.destroy => event_listener_destroy l w

/-- A sequence of calls of the listener interface, in order. -/
def run_listener_ops (long_bits : Nat) :
    List ListenerOp → event_listener_t → World → event_listener_t × World
  | [], l, w => (l, w)
  | op :: ops, l, w =>
    run_listener_ops long_bits ops (apply_listener_op long_bits l w op).1
      (apply_listener_op long_bits l w op).2

/-- The device opens, passes `is_keyboard` and is taken by `epoll_ctl`: the
three tests of `event_listener_add_device` after the capacity test. -/
def DeviceAnswer.accepted (long_bits : Nat) (a : DeviceAnswer) : Bool :=
  decide (0 ≤ a.open_ret) && is_keyboard long_bits a && decide (0 ≤ a.epoll_ctl_ret)

/-- The number of directory entries named `event...` whose device is accepted. -/
def keyboards (long_bits : Nat) (entries : List (String × DeviceAnswer)) : Nat :=
  (entries.filter fun e =>
    decide (e.1.data.take 5 = "event".data) && e.2.accepted long_bits).length

/-- The answers of a keyboard: it opens as descriptor 5, reports `EV_SYN` and
`EV_KEY`, and key 16 (`KEY_Q`); grab and `epoll_ctl` succeed. -/
def keyboard_answer : DeviceAnswer :=
  ⟨5, 8, [3], 96, [65536, 0, 0, 0, 0, 0, 0, 0, 0, 0, 0, 0], some "kbd", 0, 0⟩

/-- The answers of a mouse: `EV_KEY` is reported, with the buttons 272 to 274
and no key from 16 to 25. -/
def mouse_answer : DeviceAnswer :=
  ⟨6, 8, [7], 96, [0, 0, 0, 0, 458752, 0, 0, 0, 0, 0, 0, 0], some "mouse", 0, 0⟩

/-- A listener as `event_listener_init` leaves it. -/
def fresh_listener : event_listener_t := ⟨List.replicate 16 default, 0, 4, false, 1⟩

/-- A directory with 17 keyboards. -/
def seventeen_keyboards : List (String × DeviceAnswer) :=
  [("event0", keyboard_answer), ("event1", keyboard_answer), ("event2", keyboard_answer),
   ("event3", keyboard_answer), ("event4", keyboard_answer), ("event5", keyboard_answer),
   ("event6", keyboard_answer), ("event7", keyboard_answer), ("event8", keyboard_answer),
   ("event9", keyboard_answer), ("event10", keyboard_answer), ("event11", keyboard_answer),
   ("event12", keyboard_answer), ("event13", keyboard_answer), ("event14", keyboard_answer),
   ("event15", keyboard_answer), ("event16", keyboard_answer)]

/-- A listener with one keyboard in its table. -/
def one_keyboard_listener : event_listener_t :=
  (event_listener_add_device 64 fresh_listener "/dev/input/event0" keyboard_answer
    World.init).2.1

/-- A turn of the loop in which `epoll_wait` times out. -/
def timeout_wakeup : Wakeup := ⟨false, 0, 0, []⟩

/-- A turn of the loop before which `event_listener_stop` has been called. -/
def stop_wakeup : Wakeup := ⟨true, 0, 0, []⟩

/-- A turn of the loop in which descriptor 5 delivers a press of key 30 and
the `EV_SYN` that follows it. -/
def key_wakeup : Wakeup :=
  ⟨false, 1, 0, [(5, [⟨⟨0, 0⟩, EV_KEY, 30, 1⟩, ⟨⟨0, 0⟩, EV_SYN, SYN_REPORT, 0⟩])]⟩

/-- A turn of the loop in which `epoll_wait` fails with `EBADF` (9). -/
def failed_wakeup : Wakeup := ⟨false, -1, 9, []⟩

/-- An initialised context with one registered, active callback. -/
def one_callback_ctx : vkbd_context_t :=
  ⟨⟨3, "Virtual Keyboard", true⟩, ⟨7, 0, true⟩ :: List.replicate 15 default, 1⟩

/-- The `write` calls of a trace, each as the byte count asked for and the value
returned. -/
def write_sizes : List Effect → List (Nat × Int)
  | [] => []
  | Effect.write _ _ count ret _ :: t => (count, ret) :: write_sizes t
  | _ :: t => write_sizes t

/-- From `w` to `w'` actions were added that hold no callback invocation and no
log line of `vkbd_process_key`, and `error_logged` was not touched: what an
observer can do through the library. -/
def observer_step (w w' : World) : Prop :=
  w'.error_logged = w.error_logged ∧
    ∃ t, w'.trace = w.trace ++ t ∧ t.filter Effect.is_call = [] ∧ log_lines t = 0

/-! ## The retry loop -/

theorem write_loop_spec (env : Env) (fd : Int) (evs : List input_event) :
    ∀ (fuel r : Nat) (w : World) (x : LoopExit) (w' : World),
      write_loop env fd evs fuel r w = some (x, w') →
      ∃ n, (∀ j, j < n → (env.write (w.writes + j)).is_transient) ∧
        (n = 0 ∨ r + n ≤ 100) ∧
        w'.writes = w.writes + n + 1 ∧ w'.ticks = w.ticks ∧
        w'.error_logged = w.error_logged ∧
        w'.trace = w.trace ++ retry_effects env fd evs n w.writes r ++
          (attempt env fd evs (w.writes + n) ::
            if (env.write (w.writes + n)).is_transient then [Effect.usleep 100] else []) ∧
        (((env.write (w.writes + n)).ret = ((2 * env.sizeof_input_event : Nat) : Int) ∧
            x = LoopExit.returned 0) ∨
          ((env.write (w.writes + n)).ret ≠ ((2 * env.sizeof_input_event : Nat) : Int) ∧
            x = LoopExit.broke (env.write (w.writes + n)).ret ∧
            (¬ (env.write (w.writes + n)).is_transient ∨ 100 ≤ r + n))) := by
  intro fuel
  induction fuel with
  | zero => intro r w x w' h; simp [write_loop] at h
  | succ fuel ih =>
    intro r w x w' h
    simp only [write_loop, sys_write] at h
    by_cases hfull : (env.write w.writes).ret = ((2 * env.sizeof_input_event : Nat) : Int)
    · rw [if_pos hfull] at h
      have hnt : ¬ (env.write w.writes).is_transient := by
        intro ht; have := ht.1; omega
      simp only [Option.some.injEq, Prod.mk.injEq] at h
      obtain ⟨hx, hw⟩ := h
      subst hw
      refine ⟨0, by intro j hj; omega, Or.inl rfl, rfl, rfl, rfl, ?_, Or.inl ⟨hfull, hx.symm⟩⟩
      simp [retry_effects, attempt, hnt]
    · rw [if_neg hfull] at h
      by_cases ht : (env.write w.writes).ret < 0 ∧
          ((env.write w.writes).errno = EINTR ∨ (env.write w.writes).errno = EAGAIN)
      · rw [if_pos ht] at h
        have htr : (env.write w.writes).is_transient := ht
        by_cases h10 : r + 1 > 10
        · rw [if_pos h10] at h
          by_cases h100 : r + 1 > 100
          · rw [if_pos h100] at h
            simp only [Option.some.injEq, Prod.mk.injEq] at h
            obtain ⟨hx, hw⟩ := h
            subst hw
            refine ⟨0, by intro j hj; omega, Or.inl rfl, rfl, rfl, rfl, ?_,
              Or.inr ⟨hfull, hx.symm, Or.inr (by omega)⟩⟩
            simp [retry_effects, attempt, htr, World.emit]
          · rw [if_neg h100] at h
            obtain ⟨n, hall, hn, hwr, htk, hel, htrace, hx⟩ := ih _ _ _ _ h
            simp only [World.emit] at hall hwr htk hel htrace hx
            refine ⟨n + 1, ?_, Or.inr (by omega), by omega, htk, hel, ?_, ?_⟩
            · intro j hj
              cases j with
              | zero => exact htr
              | succ j =>
                have := hall j (by omega)
                rwa [Nat.add_assoc, Nat.add_comm 1 j] at this
            · rw [show w.writes + (n + 1) = w.writes + 1 + n by omega]
              rw [htrace]
              simp [retry_effects, attempt, h10]
            · rw [show w.writes + (n + 1) = w.writes + 1 + n by omega]
              rcases hx with hx | ⟨h1, h2, h3⟩
              · exact Or.inl hx
              · exact Or.inr ⟨h1, h2, h3.imp id (by omega)⟩
        · rw [if_neg h10] at h
          obtain ⟨n, hall, hn, hwr, htk, hel, htrace, hx⟩ := ih _ _ _ _ h
          simp only at hall hwr htk hel htrace hx
          refine ⟨n + 1, ?_, Or.inr (by omega), by omega, htk, hel, ?_, ?_⟩
          · intro j hj
            cases j with
            | zero => exact htr
            | succ j =>
              have := hall j (by omega)
              rwa [Nat.add_assoc, Nat.add_comm 1 j] at this
          · rw [show w.writes + (n + 1) = w.writes + 1 + n by omega]
            rw [htrace]
            simp [retry_effects, attempt, h10]
          · rw [show w.writes + (n + 1) = w.writes + 1 + n by omega]
            rcases hx with hx | ⟨h1, h2, h3⟩
            · exact Or.inl hx
            · exact Or.inr ⟨h1, h2, h3.imp id (by omega)⟩
      · rw [if_neg ht] at h
        have hnt : ¬ (env.write w.writes).is_transient := ht
        simp only [Option.some.injEq, Prod.mk.injEq] at h
        obtain ⟨hx, hw⟩ := h
        subst hw
        refine ⟨0, by intro j hj; omega, Or.inl rfl, rfl, rfl, rfl, ?_,
          Or.inr ⟨hfull, hx.symm, Or.inl hnt⟩⟩
        simp [retry_effects, attempt, hnt]

theorem write_loop_total (env : Env) (fd : Int) (evs : List input_event) :
    ∀ (fuel r : Nat) (w : World), 1 ≤ fuel → 101 ≤ fuel + r →
      ∃ x w', write_loop env fd evs fuel r w = some (x, w') := by
  intro fuel
  induction fuel with
  | zero => intro r w h; omega
  | succ fuel ih =>
    intro r w _ h101
    simp only [write_loop]
    split_ifs with h1 h2 h3 h4
    · exact ⟨_, _, rfl⟩
    · exact ⟨_, _, rfl⟩
    · exact ih _ _ (by omega) (by omega)
    · exact ih _ _ (by omega) (by omega)
    · exact ⟨_, _, rfl⟩

theorem write_loop_fuel (env : Env) (fd : Int) (evs : List input_event) :
    ∀ (fuel r : Nat) (w : World) (y : LoopExit × World),
      write_loop env fd evs fuel r w = some y →
      ∀ k, write_loop env fd evs (fuel + k) r w = some y := by
  intro fuel
  induction fuel with
  | zero => intro r w y h; simp [write_loop] at h
  | succ fuel ih =>
    intro r w y h k
    rw [show fuel + 1 + k = (fuel + k) + 1 by omega]
    simp only [write_loop] at h ⊢
    split_ifs at h ⊢ <;> first | exact h | exact ih _ _ _ h k

theorem decides_unique (env : Env) (s n m : Nat) (hn : decides env s n) (hm : decides env s m) :
    n = m := by
  obtain ⟨hn1, hn2, hn3⟩ := hn
  obtain ⟨hm1, hm2, hm3⟩ := hm
  rcases Nat.lt_trichotomy n m with h | h | h
  · have := hm2 n h
    rcases hn3 with h3 | h3
    · exact absurd this h3
    · omega
  · exact h
  · have := hn2 m h
    rcases hm3 with h3 | h3
    · exact absurd this h3
    · omega

theorem decides_zero (env : Env) (s : Nat) (h : ¬ (env.write s).is_transient) :
    decides env s 0 :=
  ⟨by omega, by intro j hj; omega, Or.inl h⟩

theorem full_not_transient (env : Env) (i : Nat)
    (h : (env.write i).ret = ((2 * env.sizeof_input_event : Nat) : Int)) :
    ¬ (env.write i).is_transient := by
  intro ht
  have := ht.1
  omega

theorem result_of_eq_neg_one (env : Env) (o : WriteOutcome) :
    result_of env o = -1 ↔ o.ret < 0 := by
  unfold result_of
  split_ifs with h1 h2
  · constructor
    · intro h; exact absurd h (by decide)
    · intro h; rw [h1] at h; omega
  · simp [h2]
  · simp [h2]

/-! ## Observers -/

theorem log_lines_append (a b : List Effect) :
    log_lines (a ++ b) = log_lines a + log_lines b := by
  simp [log_lines]

theorem observer_step_refl (w : World) : observer_step w w :=
  ⟨rfl, [], by simp, rfl, rfl⟩

theorem observer_step_trans (w w1 w2 : World) (h1 : observer_step w w1)
    (h2 : observer_step w1 w2) : observer_step w w2 := by
  obtain ⟨e1, t1, ht1, hc1, hl1⟩ := h1
  obtain ⟨e2, t2, ht2, hc2, hl2⟩ := h2
  refine ⟨by rw [e2, e1], t1 ++ t2, by rw [ht2, ht1, List.append_assoc], ?_, ?_⟩
  · rw [List.filter_append, hc1, hc2]
    rfl
  · rw [log_lines_append, hl1, hl2]

theorem observer_step_emit (w : World) (e : Effect) (hc : e.is_call = false)
    (hl : log_lines [e] = 0) : observer_step w (w.emit e) :=
  ⟨rfl, [e], rfl, by simp [List.filter_cons, hc], hl⟩

theorem write_event_frame (env : Env) (fd : Int) (ev : input_event) :
    ∀ (fuel : Nat) (w : World) (r : Int) (w' : World),
      write_event env fd ev fuel w = some (r, w') → observer_step w w' := by
  intro fuel
  induction fuel with
  | zero => intro w r w' h; simp [write_event] at h
  | succ fuel ih =>
    intro w r w' h
    have hstep : observer_step w (sys_write env fd [ev] env.sizeof_input_event w).2 :=
      ⟨rfl, [Effect.write fd [ev] env.sizeof_input_event (env.write w.writes).ret
        (env.write w.writes).errno], rfl, rfl, rfl⟩
    simp only [write_event] at h
    by_cases h1 : (sys_write env fd [ev] env.sizeof_input_event w).1.ret < 0 ∧
        (sys_write env fd [ev] env.sizeof_input_event w).1.errno = EINTR
    · rw [if_pos h1] at h
      exact observer_step_trans _ _ _ hstep (ih _ _ _ h)
    · rw [if_neg h1] at h
      simp only [Option.some.injEq, Prod.mk.injEq] at h
      rw [← h.2]
      exact hstep

theorem send_key_frame (env : Env) (fuel : Nat) (ctx : vkbd_context_t) (c : Nat) (v : Int)
    (w : World) (r : Int) (w' : World) (h : vkbd_send_key env fuel ctx c v w = some (r, w')) :
    observer_step w w' := by
  unfold vkbd_send_key at h
  split_ifs at h with h1
  · simp only [Option.some.injEq, Prod.mk.injEq] at h
    rw [← h.2]
    exact observer_step_emit _ _ rfl rfl
  · have htick : observer_step w (sys_gettimeofday env w).2 :=
      ⟨rfl, [], by simp [sys_gettimeofday], rfl, rfl⟩
    simp only at h
    cases hw : write_event env ctx.device.fd ⟨(sys_gettimeofday env w).1, EV_KEY, c, v⟩ fuel
        (sys_gettimeofday env w).2 with
    | none => simp [hw] at h
    | some x =>
      obtain ⟨r1, w1⟩ := x
      have hframe := observer_step_trans _ _ _ htick (write_event_frame _ _ _ _ _ _ _ hw)
      simp only [hw] at h
      split_ifs at h with h2
      · simp only [Option.some.injEq, Prod.mk.injEq] at h
        rw [← h.2]
        exact observer_step_trans _ _ _ hframe (observer_step_emit _ _ rfl (by decide))
      · simp only [Option.some.injEq, Prod.mk.injEq] at h
        rw [← h.2]
        exact hframe

theorem sync_frame (env : Env) (fuel : Nat) (ctx : vkbd_context_t) (w : World) (r : Int)
    (w' : World) (h : vkbd_sync env fuel ctx w = some (r, w')) : observer_step w w' := by
  unfold vkbd_sync at h
  split_ifs at h with h1
  · simp only [Option.some.injEq, Prod.mk.injEq] at h
    rw [← h.2]
    exact observer_step_emit _ _ rfl rfl
  · have htick : observer_step w (sys_gettimeofday env w).2 :=
      ⟨rfl, [], by simp [sys_gettimeofday], rfl, rfl⟩
    simp only at h
    cases hw : write_event env ctx.device.fd ⟨(sys_gettimeofday env w).1, EV_SYN, SYN_REPORT, 0⟩
        fuel (sys_gettimeofday env w).2 with
    | none => simp [hw] at h
    | some x =>
      obtain ⟨r1, w1⟩ := x
      have hframe := observer_step_trans _ _ _ htick (write_event_frame _ _ _ _ _ _ _ hw)
      simp only [hw] at h
      split_ifs at h with h2
      · simp only [Option.some.injEq, Prod.mk.injEq] at h
        rw [← h.2]
        exact observer_step_trans _ _ _ hframe (observer_step_emit _ _ rfl (by decide))
      · simp only [Option.some.injEq, Prod.mk.injEq] at h
        rw [← h.2]
        exact hframe

theorem run_observer_frame (env : Env) (fuel : Nat) (ctx : vkbd_context_t) :
    ∀ (p : ObserverProg) (w w' : World),
      run_observer env fuel ctx p w = some w' → observer_step w w' := by
  intro p
  induction p with
  | done =>
    intro w w' h
    simp only [run_observer, Option.some.injEq] at h
    rw [← h]
    exact observer_step_refl w
  | printf msg next ih =>
    intro w w' h
    simp only [run_observer] at h
    exact observer_step_trans _ _ _ (observer_step_emit w (Effect.printf msg) rfl rfl)
      (ih _ _ h)
  | send_key c v next ih =>
    intro w w' h
    simp only [run_observer] at h
    cases hs : vkbd_send_key env fuel ctx c v w with
    | none => simp [hs] at h
    | some x =>
      obtain ⟨r, w1⟩ := x
      simp only [hs] at h
      exact observer_step_trans _ _ _ (send_key_frame _ _ _ _ _ _ _ _ hs) (ih r _ _ h)
  | sync next ih =>
    intro w w' h
    simp only [run_observer] at h
    cases hs : vkbd_sync env fuel ctx w with
    | none => simp [hs] at h
    | some x =>
      obtain ⟨r, w1⟩ := x
      simp only [hs] at h
      exact observer_step_trans _ _ _ (sync_frame _ _ _ _ _ _ hs) (ih r _ _ h)

/-- The callback loop adds one invocation record per active slot, in order,
between them what the observers did, and leaves `error_logged` alone. -/
theorem invoke_handlers_frame (env : Env) (fuel : Nat) (ctx : vkbd_context_t) (c : Nat)
    (v : Int) :
    ∀ (l : List Nat) (w w1 : World), invoke_handlers env fuel ctx c v l w = some w1 →
      w1.error_logged = w.error_logged ∧
        ∃ t, w1.trace = w.trace ++ t ∧ t.filter Effect.is_call = call_effects ctx c v l ∧
          log_lines t = 0 := by
  intro l
  induction l with
  | nil =>
    intro w w1 h
    simp only [invoke_handlers, Option.some.injEq] at h
    rw [← h]
    exact ⟨rfl, [], by simp, rfl, rfl⟩
  | cons i l ih =>
    intro w w1 h
    simp only [invoke_handlers] at h
    cases hi : invoke_handler env fuel ctx c v w i with
    | none => simp [hi] at h
    | some w0 =>
      simp only [hi] at h
      obtain ⟨e2, t2, ht2, hc2, hl2⟩ := ih _ _ h
      unfold invoke_handler at hi
      simp only at hi
      by_cases ha : (ctx.handlers[i]?.getD default).active = true
      · rw [if_pos ha] at hi
        obtain ⟨e1, t1, ht1, hc1, hl1⟩ := run_observer_frame _ _ _ _ _ _ hi
        refine ⟨by rw [e2, e1]; rfl,
          Effect.call i (ctx.handlers[i]?.getD default).callback c v
            (ctx.handlers[i]?.getD default).user_data :: (t1 ++ t2), ?_, ?_, ?_⟩
        · rw [ht2, ht1]
          simp [World.emit]
        · rw [List.filter_cons, List.filter_append, hc1, hc2]
          simp only [Effect.is_call, if_true, List.nil_append, call_effects,
            List.filterMap_cons, ha]
        · have hcons : log_lines (Effect.call i (ctx.handlers[i]?.getD default).callback c v
              (ctx.handlers[i]?.getD default).user_data :: (t1 ++ t2)) =
              log_lines [Effect.call i (ctx.handlers[i]?.getD default).callback c v
                (ctx.handlers[i]?.getD default).user_data] + log_lines (t1 ++ t2) :=
            log_lines_append [_] _
          rw [hcons, log_lines_append, hl1, hl2]
          rfl
      · rw [if_neg ha] at hi
        simp only [Option.some.injEq] at hi
        subst hi
        refine ⟨e2, t2, ht2, ?_, hl2⟩
        rw [hc2]
        simp only [call_effects, List.filterMap_cons, ha, if_false, Bool.false_eq_true]

theorem run_observer_quiet (env : Env) (fuel : Nat) (ctx : vkbd_context_t) :
    ∀ (p : ObserverProg) (w : World), p.quiet →
      ∃ t, run_observer env fuel ctx p w = some { w with trace := w.trace ++ t } ∧
        ∀ e, e ∈ t → e.is_silent = true := by
  intro p
  induction p with
  | done =>
    intro w _
    exact ⟨[], by simp [run_observer], by intro e he; cases he⟩
  | printf msg next ih =>
    intro w hq
    obtain ⟨t, ht, hs⟩ := ih (w.emit (Effect.printf msg)) hq
    refine ⟨Effect.printf msg :: t, ?_, ?_⟩
    · simp only [run_observer]
      rw [ht]
      simp [World.emit]
    · intro e he
      rcases List.mem_cons.1 he with h | h
      · rw [h]; rfl
      · exact hs e h
  | send_key c v next _ => intro w hq; exact absurd hq id
  | sync next _ => intro w hq; exact absurd hq id

theorem invoke_handlers_quiet (env : Env) (fuel : Nat) (ctx : vkbd_context_t) (c : Nat)
    (v : Int) (hq : observers_quiet env) :
    ∀ (l : List Nat) (w : World),
      ∃ t, invoke_handlers env fuel ctx c v l w = some { w with trace := w.trace ++ t } ∧
        ∀ e, e ∈ t → e.is_silent = true := by
  intro l
  induction l with
  | nil =>
    intro w
    exact ⟨[], by simp [invoke_handlers], by intro e he; cases he⟩
  | cons i l ih =>
    intro w
    by_cases ha : (ctx.handlers[i]?.getD default).active = true
    · obtain ⟨t1, ht1, hs1⟩ := run_observer_quiet env fuel ctx
        (env.observer (w.trace.filter Effect.is_call).length
          (ctx.handlers[i]?.getD default).callback c v (ctx.handlers[i]?.getD default).user_data)
        (w.emit (Effect.call i (ctx.handlers[i]?.getD default).callback c v
          (ctx.handlers[i]?.getD default).user_data)) (hq _ _ _ _ _)
      obtain ⟨t2, ht2, hs2⟩ := ih
        { (w.emit (Effect.call i (ctx.handlers[i]?.getD default).callback c v
            (ctx.handlers[i]?.getD default).user_data)) with
          trace := (w.emit (Effect.call i (ctx.handlers[i]?.getD default).callback c v
            (ctx.handlers[i]?.getD default).user_data)).trace ++ t1 }
      refine ⟨Effect.call i (ctx.handlers[i]?.getD default).callback c v
        (ctx.handlers[i]?.getD default).user_data :: (t1 ++ t2), ?_, ?_⟩
      · simp only [invoke_handlers, invoke_handler, ha, if_true]
        rw [ht1]
        simp only
        rw [ht2]
        simp [World.emit]
      · intro e he
        rcases List.mem_cons.1 he with h | h
        · rw [h]; rfl
        · rcases List.mem_append.1 h with h | h
          · exact hs1 e h
          · exact hs2 e h
    · obtain ⟨t2, ht2, hs2⟩ := ih w
      refine ⟨t2, ?_, hs2⟩
      simp only [invoke_handlers, invoke_handler, ha, if_false, Bool.false_eq_true, ht2]

theorem write_event_total (env : Env) (fd : Int) (ev : input_event) :
    ∀ (fuel : Nat) (w : World), (∃ j, j < fuel ∧ ¬ (env.write (w.writes + j)).is_eintr) →
      ∃ r w', write_event env fd ev fuel w = some (r, w') := by
  intro fuel
  induction fuel with
  | zero =>
    rintro w ⟨j, hj, _⟩
    omega
  | succ fuel ih =>
    rintro w ⟨j, hj, hne⟩
    simp only [write_event, sys_write]
    by_cases h1 : (env.write w.writes).ret < 0 ∧ (env.write w.writes).errno = EINTR
    · rw [if_pos h1]
      cases j with
      | zero => exact absurd h1 hne
      | succ j =>
        apply ih
        refine ⟨j, by omega, ?_⟩
        simp only
        rw [Nat.add_assoc, Nat.add_comm 1 j]
        exact hne
    · rw [if_neg h1]
      exact ⟨_, _, rfl⟩

theorem send_key_total (env : Env) (fuel : Nat) (ctx : vkbd_context_t) (c : Nat) (v : Int)
    (w : World) (hb : bounded_eintr env fuel) :
    ∃ r w', vkbd_send_key env fuel ctx c v w = some (r, w') := by
  unfold vkbd_send_key
  split_ifs with h1
  · exact ⟨_, _, rfl⟩
  · obtain ⟨r, w1, hw⟩ := write_event_total env ctx.device.fd
      ⟨(sys_gettimeofday env w).1, EV_KEY, c, v⟩ fuel (sys_gettimeofday env w).2 (hb _)
    simp only [hw]
    split_ifs
    · exact ⟨_, _, rfl⟩
    · exact ⟨_, _, rfl⟩

theorem sync_total (env : Env) (fuel : Nat) (ctx : vkbd_context_t) (w : World)
    (hb : bounded_eintr env fuel) : ∃ r w', vkbd_sync env fuel ctx w = some (r, w') := by
  unfold vkbd_sync
  split_ifs with h1
  · exact ⟨_, _, rfl⟩
  · obtain ⟨r, w1, hw⟩ := write_event_total env ctx.device.fd
      ⟨(sys_gettimeofday env w).1, EV_SYN, SYN_REPORT, 0⟩ fuel (sys_gettimeofday env w).2 (hb _)
    simp only [hw]
    split_ifs
    · exact ⟨_, _, rfl⟩
    · exact ⟨_, _, rfl⟩

theorem run_observer_total (env : Env) (fuel : Nat) (ctx : vkbd_context_t)
    (hb : bounded_eintr env fuel) :
    ∀ (p : ObserverProg) (w : World), ∃ w', run_observer env fuel ctx p w = some w' := by
  intro p
  induction p with
  | done => intro w; exact ⟨w, rfl⟩
  | printf msg next ih =>
    intro w
    simp only [run_observer]
    exact ih _
  | send_key c v next ih =>
    intro w
    obtain ⟨r, w1, hs⟩ := send_key_total env fuel ctx c v w hb
    simp only [run_observer, hs]
    exact ih r w1
  | sync next ih =>
    intro w
    obtain ⟨r, w1, hs⟩ := sync_total env fuel ctx w hb
    simp only [run_observer, hs]
    exact ih r w1

/-- The callback loop ends when the observers are quiet or `write` is not
interrupted `fuel` times in a row. -/
theorem invoke_handlers_total (env : Env) (fuel : Nat) (ctx : vkbd_context_t) (c : Nat)
    (v : Int) (hr : observers_return env fuel) :
    ∀ (l : List Nat) (w : World), ∃ w1, invoke_handlers env fuel ctx c v l w = some w1 := by
  rcases hr with hq | hb
  · intro l w
    obtain ⟨t, ht, _⟩ := invoke_handlers_quiet env fuel ctx c v hq l w
    exact ⟨_, ht⟩
  · intro l
    induction l with
    | nil => intro w; exact ⟨w, rfl⟩
    | cons i l ih =>
      intro w
      have hi : ∃ w0, invoke_handler env fuel ctx c v w i = some w0 := by
        unfold invoke_handler
        simp only
        split_ifs
        · exact run_observer_total env fuel ctx hb _ _
        · exact ⟨w, rfl⟩
      obtain ⟨w0, hw0⟩ := hi
      simp only [invoke_handlers, hw0]
      exact ih w0

theorem silent_delivered (sz : Nat) (t : List Effect) (h : ∀ e, e ∈ t → e.is_silent = true) :
    delivered sz t = [] := by
  induction t with
  | nil => rfl
  | cons e t ih =>
    have he := h e (List.mem_cons_self _ _)
    have ht := ih (fun x hx => h x (List.mem_cons_of_mem _ hx))
    cases e <;> simp_all [delivered, delivered_by, Effect.is_silent]

theorem silent_write_attempts (t : List Effect) (h : ∀ e, e ∈ t → e.is_silent = true) :
    (t.filter Effect.is_write).length = 0 := by
  rw [List.length_eq_zero, List.filter_eq_nil_iff]
  intro e he
  have hs := h e he
  cases e <;> simp_all [Effect.is_silent, Effect.is_write]

/-! ## One call of `vkbd_process_key` -/

/-- One call of `vkbd_process_key` on an initialised context whose callback
loop ends in the world `w1`: `n` attempts of the write loop fail transiently
and are retried, attempt `n` decides. -/
theorem process_key_spec (env : Env) (fuel : Nat) (ctx : vkbd_context_t) (c : Nat) (v : Int)
    (w w1 : World) (hinit : ctx.device.initialized = true) (hfuel : 101 ≤ fuel)
    (hobs : invoke_handlers env fuel ctx c v (List.range ctx.handler_count) w = some w1) :
    ∃ n, decides env w1.writes n ∧
      vkbd_process_key env fuel ctx c v w =
        some (result_of env (env.write (w1.writes + n)), world_after env ctx c v w1 n) := by
  unfold decides world_after
  obtain ⟨x, w2, hloop⟩ := write_loop_total env ctx.device.fd
    (key_events (env.gettimeofday w1.ticks) c v) fuel 0
    { w1 with ticks := w1.ticks + 1 } (by omega) (by omega)
  obtain ⟨n, hall, hn, hwr, htk, hel, htrace, hx⟩ := write_loop_spec _ _ _ _ _ _ _ _ hloop
  simp only at hall hn hwr htk hel htrace hx
  refine ⟨n, ⟨by omega, hall, ?_⟩, ?_⟩
  · rcases hx with ⟨h1, _⟩ | ⟨_, _, h3⟩
    · left; intro ht; have := ht.1; omega
    · exact h3.imp id (by omega)
  · simp only [vkbd_process_key, hinit, hobs, sys_gettimeofday, Bool.not_true,
      Bool.false_eq_true, if_false]
    rw [hloop]
    rcases hx with ⟨h1, h2⟩ | ⟨h1, h2, _⟩
    · subst h2
      have hnn : ¬ (env.write (w1.writes + n)).ret < 0 := by omega
      have hnt : ¬ (env.write (w1.writes + n)).is_transient := fun ht => hnn ht.1
      simp only [result_of, h1, if_true, Option.some.injEq, Prod.mk.injEq, true_and]
      apply World.ext <;> simp [hwr, htk, hel, htrace, hnn, hnt]
    · subst h2
      by_cases hneg : (env.write (w1.writes + n)).ret < 0
      · by_cases hlog : w2.error_logged = true
        · have hlog' : w1.error_logged = true := by rw [← hel]; exact hlog
          simp only [result_of, h1, hneg, hlog, if_true, if_false, Bool.not_true,
            Bool.false_eq_true, Option.some.injEq, Prod.mk.injEq, true_and]
          apply World.ext <;> simp [hwr, htk, hel, htrace, hneg, hlog']
        · have hlog' : w1.error_logged = false := by
            rw [← hel]; simpa using hlog
          have hlog2 : w2.error_logged = false := by simpa using hlog
          simp only [result_of, h1, hneg, hlog2, if_true, if_false, Bool.not_false,
            Option.some.injEq, Prod.mk.injEq, true_and]
          apply World.ext <;> simp [hwr, htk, htrace, hneg, hlog', World.emit, write_failed]
      · have hnt : ¬ (env.write (w1.writes + n)).is_transient := fun ht => hneg ht.1
        simp only [result_of, h1, hneg, if_false, Option.some.injEq, Prod.mk.injEq, true_and]
        apply World.ext <;> simp [hwr, htk, hel, htrace, hneg, hnt]

theorem process_key_at (env : Env) (fuel : Nat) (ctx : vkbd_context_t) (c : Nat) (v : Int)
    (w w1 : World) (hinit : ctx.device.initialized = true) (hfuel : 101 ≤ fuel)
    (hobs : invoke_handlers env fuel ctx c v (List.range ctx.handler_count) w = some w1)
    (n : Nat) (hn : decides env w1.writes n) :
    vkbd_process_key env fuel ctx c v w =
      some (result_of env (env.write (w1.writes + n)), world_after env ctx c v w1 n) := by
  obtain ⟨m, hm, h⟩ := process_key_spec env fuel ctx c v w w1 hinit hfuel hobs
  rw [decides_unique env _ n m hn hm]
  exact h

/-- A call that returns has come through its callback loop. -/
theorem process_key_inv (env : Env) (fuel : Nat) (ctx : vkbd_context_t) (c : Nat) (v : Int)
    (w : World) (r : Int) (w' : World) (hinit : ctx.device.initialized = true)
    (hfuel : 101 ≤ fuel) (h : vkbd_process_key env fuel ctx c v w = some (r, w')) :
    ∃ w1 n, invoke_handlers env fuel ctx c v (List.range ctx.handler_count) w = some w1 ∧
      decides env w1.writes n ∧ r = result_of env (env.write (w1.writes + n)) ∧
      w' = world_after env ctx c v w1 n := by
  cases hobs : invoke_handlers env fuel ctx c v (List.range ctx.handler_count) w with
  | none =>
    simp only [vkbd_process_key, hinit, hobs, Bool.not_true, Bool.false_eq_true, if_false] at h
    exact absurd h (by simp)
  | some w1 =>
    obtain ⟨n, hn, hcall⟩ := process_key_spec env fuel ctx c v w w1 hinit hfuel hobs
    rw [hcall] at h
    simp only [Option.some.injEq, Prod.mk.injEq] at h
    exact ⟨w1, n, rfl, hn, h.1.symm, h.2.symm⟩

/-- With fuel for the write loop and observers that return, a call returns. -/
theorem process_key_total (env : Env) (fuel : Nat) (ctx : vkbd_context_t) (c : Nat) (v : Int)
    (w : World) (hfuel : 101 ≤ fuel) (hr : observers_return env fuel) :
    ∃ r w', vkbd_process_key env fuel ctx c v w = some (r, w') := by
  cases hinit : ctx.device.initialized
  · exact ⟨-1, w, by simp only [vkbd_process_key, hinit, Bool.not_false, if_true]⟩
  · obtain ⟨w1, hobs⟩ := invoke_handlers_total env fuel ctx c v hr
      (List.range ctx.handler_count) w
    obtain ⟨n, _, h⟩ := process_key_spec env fuel ctx c v w w1 hinit hfuel hobs
    exact ⟨_, _, h⟩

/-! ## The delivered stream -/

theorem delivered_append (sz : Nat) (a b : List Effect) :
    delivered sz (a ++ b) = delivered sz a ++ delivered sz b := by
  induction a with
  | nil => rfl
  | cons e es ih => simp [delivered, ih]

theorem delivered_retry_effects (sz : Nat) (env : Env) (fd : Int) (evs : List input_event) :
    ∀ (n s r : Nat), (∀ j, j < n → (env.write (s + j)).is_transient) →
      delivered sz (retry_effects env fd evs n s r) = [] := by
  intro n
  induction n with
  | zero => intro s r _; rfl
  | succ n ih =>
    intro s r h
    have h0 : (env.write s).ret < 0 := (h 0 (by omega)).1
    have hrest : delivered sz (retry_effects env fd evs n (s + 1) (r + 1)) = [] := by
      apply ih
      intro j hj
      have := h (j + 1) (by omega)
      rwa [Nat.add_comm j 1, ← Nat.add_assoc] at this
    have hn0 : ¬ (0 ≤ (env.write s).ret) := by omega
    simp only [retry_effects, delivered, delivered_by, attempt, hn0, if_false, List.nil_append,
      delivered_append, hrest, List.append_nil]
    split_ifs <;> simp [delivered, delivered_by]

theorem paired_append (b : List input_event) :
    ∀ a : List input_event, paired a = true → paired (a ++ b) = paired b
  | [], _ => rfl
  | [_], h => by simp [paired] at h
  | k :: s :: rest, h => by
    simp only [paired, Bool.and_eq_true] at h
    simp only [List.cons_append, paired, h.1, Bool.true_and]
    exact paired_append b rest h.2

/-- What the write loop of one call adds to the delivered stream: what its last
attempt delivers. -/
theorem delivered_world_after (sz : Nat) (env : Env) (ctx : vkbd_context_t) (c : Nat) (v : Int)
    (w : World) (n : Nat) (hn : decides env w.writes n) :
    delivered sz (world_after env ctx c v w n).trace =
      delivered sz w.trace ++
        delivered_by sz
          (attempt env ctx.device.fd (key_events (env.gettimeofday w.ticks) c v)
            (w.writes + n)) := by
  have h1 := delivered_retry_effects sz env ctx.device.fd
    (key_events (env.gettimeofday w.ticks) c v) n w.writes 0 hn.2.1
  have h2 : delivered sz
      (if (env.write (w.writes + n)).is_transient then [Effect.usleep 100] else []) = [] := by
    split_ifs <;> rfl
  have h3 : delivered sz
      (if (env.write (w.writes + n)).ret < 0 ∧ w.error_logged = false then [write_failed]
        else []) = [] := by
    split_ifs <;> rfl
  simp only [world_after, delivered_append, delivered, h1, h2, h3, List.append_nil]

theorem take_key_events_paired (now : timeval) (c : Nat) (v : Int) (m : Nat) (hm : m ≠ 1) :
    paired ((key_events now c v).take m) = true := by
  match m, hm with
  | 0, _ => rfl
  | 1, h => exact absurd rfl h
  | m + 2, _ => simp [key_events, paired, is_report]

theorem whole_events_ne_one (sz : Nat) (ret : Int) (h0 : 0 ≤ ret)
    (h : ¬ ((sz : Int) ≤ ret ∧ ret < 2 * (sz : Int))) : ret.toNat / sz ≠ 1 := by
  intro h1
  have hsz : 0 < sz := by
    rcases Nat.eq_zero_or_pos sz with h | h
    · subst h; simp at h1
    · exact h
  have h2 := Nat.div_add_mod ret.toNat sz
  have h3 := Nat.mod_lt ret.toNat hsz
  rw [h1] at h2
  apply h
  omega

/-! ## C1: the delivered stream is made of (key, sync) pairs -/

/-- C1, as stated, fails, in two ways. When the single `write` of a call
returns the size of one event (24 of 48 bytes), the call ends and the device
has received the key event without its sync. And with `remap_callback`
registered, when the `write` of the observer's sync fails while every other
`write` takes its whole buffer, the device receives the observer's key event,
then the key event and the sync of `vkbd_process_key`: two key events in a row. -/
theorem lone_key_event_after_short_write :
    (process_keys short_env 101 fresh_ctx [(30, 1)] World.init =
        some ([0], ⟨1, 1, false, [Effect.write 3 (key_events ⟨0, 0⟩ 30 1) 48 24 0]⟩) ∧
      delivered short_env.sizeof_input_event
          [Effect.write 3 (key_events ⟨0, 0⟩ 30 1) 48 24 0] = [⟨⟨0, 0⟩, EV_KEY, 30, 1⟩] ∧
      paired [⟨⟨0, 0⟩, EV_KEY, 30, 1⟩] = false) ∧
    ((process_keys sync_lost_env 101 one_callback_ctx [(30, 1)] World.init).map
        (fun p => (p.1, write_sizes p.2.trace,
          delivered sync_lost_env.sizeof_input_event p.2.trace)) =
        some ([0], [(24, 24), (24, -1), (48, 48)],
          [⟨⟨0, 0⟩, EV_KEY, 30, 1⟩, ⟨⟨2, 0⟩, EV_KEY, 30, 1⟩,
            ⟨⟨2, 0⟩, EV_SYN, SYN_REPORT, 0⟩]) ∧
      paired [⟨⟨0, 0⟩, EV_KEY, 30, 1⟩, ⟨⟨2, 0⟩, EV_KEY, 30, 1⟩,
        ⟨⟨2, 0⟩, EV_SYN, SYN_REPORT, 0⟩] = false) := by
  decide

/-- C1 (amended): over every sequence of `vkbd_process_key` calls on an
initialised context, if no observer writes to the device itself (the
observers are quiet) and no `write` returns a short count that covers the key
event but not its sync (`sizeof(struct input_event) ≤ ret < sizeof(events)`),
every call returns and the stream delivered to the device stays a
concatenation of (key event, `SYN_REPORT`) pairs, each sync carrying the
timestamp of its key event. -/
theorem paired_stream_without_split_write (env : Env) (fuel : Nat) (ctx : vkbd_context_t)
    (keys : List (Nat × Int)) (w : World)
    (hinit : ctx.device.initialized = true) (hfuel : 101 ≤ fuel)
    (hquiet : observers_quiet env)
    (hsplit : ∀ i, ¬ (env.write i).splits_report env.sizeof_input_event)
    (hw : paired (delivered env.sizeof_input_event w.trace) = true) :
    ∃ rets w', process_keys env fuel ctx keys w = some (rets, w') ∧
      rets.length = keys.length ∧
      paired (delivered env.sizeof_input_event w'.trace) = true := by
  induction keys generalizing w with
  | nil => exact ⟨[], w, rfl, rfl, hw⟩
  | cons k ks ih =>
    obtain ⟨t, hobs, hsilent⟩ := invoke_handlers_quiet env fuel ctx k.1 k.2 hquiet
      (List.range ctx.handler_count) w
    obtain ⟨n, hn, hcall⟩ := process_key_spec env fuel ctx k.1 k.2 w _ hinit hfuel hobs
    have hpair : paired (delivered env.sizeof_input_event
        (world_after env ctx k.1 k.2 { w with trace := w.trace ++ t } n).trace) = true := by
      rw [delivered_world_after _ _ _ _ _ _ _ hn]
      simp only [delivered_append, silent_delivered _ t hsilent, List.append_nil]
      rw [paired_append _ _ hw]
      simp only [attempt, delivered_by]
      split_ifs with h0
      · exact take_key_events_paired _ _ _ _
          (whole_events_ne_one _ _ h0 (hsplit (w.writes + n)))
      · rfl
    obtain ⟨rs, w', hrest, hlen, hp⟩ := ih _ hpair
    refine ⟨result_of env (env.write (w.writes + n)) :: rs, w', ?_, by simp [hlen], hp⟩
    simp only [process_keys, hcall, hrest]

/-- C1 (amended), at a concrete input: a press and a release of key 30 through
a device that takes every write in full. -/
theorem paired_stream_without_split_write_witness :
    ∃ rets w', process_keys good_env 101 fresh_ctx [(30, 1), (30, 0)] World.init =
        some (rets, w') ∧
      rets.length = [((30 : Nat), (1 : Int)), (30, 0)].length ∧
      paired (delivered good_env.sizeof_input_event w'.trace) = true :=
  paired_stream_without_split_write good_env 101 fresh_ctx [(30, 1), (30, 0)] World.init
    rfl (by decide) (fun _ _ _ _ _ => trivial)
    (fun i => by simp [WriteOutcome.splits_report, good_env]) rfl

/-! ## C2: the return value after a short write -/

/-- C2, at the failing input: the only `write` of the call returns 24, not the
48 bytes of the two events, and `vkbd_process_key` returns 0. -/
theorem short_write_returns_zero :
    vkbd_process_key short_env 101 fresh_ctx 30 1 World.init =
      some (0, ⟨1, 1, false, [Effect.write 3 (key_events ⟨0, 0⟩ 30 1) 48 24 0]⟩) := by
  decide

/-! ## C8: press and release -/

/-- C8: with no observer registered and every write taking both events,
`vkbd_process_key (X, 1)` then `vkbd_process_key (X, 0)` both return 0, make
one `write` each, and the device receives exactly `EV_KEY (X, 1)`,
`SYN_REPORT`, `EV_KEY (X, 0)`, `SYN_REPORT`, each sync with the timestamp of
the key event before it. -/
theorem press_release_round_trip (env : Env) (fuel : Nat) (ctx : vkbd_context_t) (X : Nat)
    (w : World) (hinit : ctx.device.initialized = true) (hfuel : 101 ≤ fuel)
    (hnone : ctx.handler_count = 0) (hsz : 0 < env.sizeof_input_event)
    (hok : ∀ i, (env.write i).ret = ((2 * env.sizeof_input_event : Nat) : Int)) :
    ∃ w', process_keys env fuel ctx [(X, 1), (X, 0)] w = some ([0, 0], w') ∧
      w'.trace = w.trace ++
        [attempt env ctx.device.fd (key_events (env.gettimeofday w.ticks) X 1) w.writes,
         attempt env ctx.device.fd (key_events (env.gettimeofday (w.ticks + 1)) X 0)
           (w.writes + 1)] ∧
      delivered env.sizeof_input_event w'.trace =
        delivered env.sizeof_input_event w.trace ++
          [⟨env.gettimeofday w.ticks, EV_KEY, X, 1⟩,
           ⟨env.gettimeofday w.ticks, EV_SYN, SYN_REPORT, 0⟩,
           ⟨env.gettimeofday (w.ticks + 1), EV_KEY, X, 0⟩,
           ⟨env.gettimeofday (w.ticks + 1), EV_SYN, SYN_REPORT, 0⟩] := by
  have hnt : ∀ i, ¬ (env.write i).is_transient := fun i => full_not_transient env i (hok i)
  have hnn : ∀ i, ¬ (env.write i).ret < 0 := by
    intro i; have := hok i; omega
  have hobs : ∀ (v : Int) (w0 : World),
      invoke_handlers env fuel ctx X v (List.range ctx.handler_count) w0 = some w0 := by
    intro v w0
    rw [hnone]
    rfl
  have h1 := process_key_at env fuel ctx X 1 w w hinit hfuel (hobs 1 w) 0
    (decides_zero env _ (hnt _))
  have h2 := process_key_at env fuel ctx X 0 (world_after env ctx X 1 w 0)
    (world_after env ctx X 1 w 0) hinit hfuel (hobs 0 _) 0 (decides_zero env _ (hnt _))
  have hr : ∀ i, result_of env (env.write i) = 0 := by
    intro i; simp [result_of, hok i]
  have hdiv : 2 * env.sizeof_input_event / env.sizeof_input_event = 2 :=
    Nat.mul_div_cancel 2 hsz
  have htrace : (world_after env ctx X 0 (world_after env ctx X 1 w 0) 0).trace = w.trace ++
      [attempt env ctx.device.fd (key_events (env.gettimeofday w.ticks) X 1) w.writes,
       attempt env ctx.device.fd (key_events (env.gettimeofday (w.ticks + 1)) X 0)
         (w.writes + 1)] := by
    simp [world_after, retry_effects, hnt, hnn]
  refine ⟨world_after env ctx X 0 (world_after env ctx X 1 w 0) 0, ?_, htrace, ?_⟩
  · simp only [process_keys, h1, h2, hr]
  · have hdiv2 : (2 * (env.sizeof_input_event : Int)).toNat / env.sizeof_input_event = 2 := by
      have h : (2 * (env.sizeof_input_event : Int)).toNat = 2 * env.sizeof_input_event := by
        omega
      rw [h]
      exact hdiv
    rw [htrace]
    simp [delivered_append, delivered, delivered_by, attempt, hok, hdiv2, key_events]

/-- C8, at a concrete input: key 30 pressed and released on a fresh context. -/
theorem press_release_round_trip_witness :
    ∃ w', process_keys good_env 101 fresh_ctx [(30, 1), (30, 0)] World.init =
        some ([0, 0], w') ∧
      w'.trace = World.init.trace ++
        [attempt good_env fresh_ctx.device.fd
           (key_events (good_env.gettimeofday World.init.ticks) 30 1) World.init.writes,
         attempt good_env fresh_ctx.device.fd
           (key_events (good_env.gettimeofday (World.init.ticks + 1)) 30 0)
           (World.init.writes + 1)] ∧
      delivered good_env.sizeof_input_event w'.trace =
        delivered good_env.sizeof_input_event World.init.trace ++
          [⟨good_env.gettimeofday World.init.ticks, EV_KEY, 30, 1⟩,
           ⟨good_env.gettimeofday World.init.ticks, EV_SYN, SYN_REPORT, 0⟩,
           ⟨good_env.gettimeofday (World.init.ticks + 1), EV_KEY, 30, 0⟩,
           ⟨good_env.gettimeofday (World.init.ticks + 1), EV_SYN, SYN_REPORT, 0⟩] :=
  press_release_round_trip good_env 101 fresh_ctx 30 World.init rfl (by decide) rfl
    (by decide) (fun _ => rfl)

/-! ## Counting actions -/

theorem mem_retry_effects (env : Env) (fd : Int) (evs : List input_event) :
    ∀ (n s r : Nat) (e : Effect), e ∈ retry_effects env fd evs n s r →
      e = Effect.usleep 100 ∨ ∃ j, j < n ∧ e = attempt env fd evs (s + j) := by
  intro n
  induction n with
  | zero => intro s r e h; simp [retry_effects] at h
  | succ n ih =>
    intro s r e h
    simp only [retry_effects, List.mem_cons, List.mem_append] at h
    rcases h with h | h | h
    · exact Or.inr ⟨0, by omega, by simpa using h⟩
    · split_ifs at h
      · simp at h; exact Or.inl h
      · simp at h
    · rcases ih _ _ _ h with h | ⟨j, hj, h⟩
      · exact Or.inl h
      · exact Or.inr ⟨j + 1, by omega, by rw [h, Nat.add_assoc, Nat.add_comm 1 j]⟩

theorem write_attempts_append (a b : List Effect) :
    write_attempts (a ++ b) = write_attempts a + write_attempts b := by
  simp [write_attempts]

theorem write_attempts_retry_effects (env : Env) (fd : Int) (evs : List input_event) :
    ∀ (n s r : Nat), write_attempts (retry_effects env fd evs n s r) = n := by
  intro n
  induction n with
  | zero => intro s r; rfl
  | succ n ih =>
    intro s r
    have h := ih (s + 1) (r + 1)
    unfold write_attempts at h ⊢
    simp only [retry_effects]
    split_ifs <;> simp [attempt, Effect.is_write, List.filter_cons, h]

theorem write_attempts_world_after (env : Env) (ctx : vkbd_context_t) (c : Nat) (v : Int)
    (w : World) (n : Nat) :
    write_attempts (world_after env ctx c v w n).trace = write_attempts w.trace + n + 1 := by
  have h1 : write_attempts
      (if (env.write (w.writes + n)).is_transient then [Effect.usleep 100] else []) = 0 := by
    split_ifs <;> rfl
  have h2 : write_attempts
      (if (env.write (w.writes + n)).ret < 0 ∧ w.error_logged = false then [write_failed]
        else []) = 0 := by
    split_ifs <;> rfl
  have h3 : ∀ (e : Effect) (t : List Effect), write_attempts (e :: t) =
      write_attempts [e] + write_attempts t := fun e t => write_attempts_append [e] t
  simp only [world_after, write_attempts_append, write_attempts_retry_effects, h1, h2]
  rw [h3, h1]
  simp [write_attempts, attempt, Effect.is_write]

theorem log_lines_retry_effects (env : Env) (fd : Int) (evs : List input_event) (n s r : Nat) :
    log_lines (retry_effects env fd evs n s r) = 0 := by
  unfold log_lines
  rw [List.count_eq_zero]
  intro he
  rcases mem_retry_effects _ _ _ _ _ _ _ he with h | ⟨j, _, h⟩
  · exact absurd h (by decide)
  · simp [write_failed, attempt] at h

theorem log_lines_world_after (env : Env) (ctx : vkbd_context_t) (c : Nat) (v : Int)
    (w : World) (n : Nat) :
    log_lines (world_after env ctx c v w n).trace =
      log_lines w.trace +
        (if (env.write (w.writes + n)).ret < 0 ∧ w.error_logged = false then 1 else 0) := by
  have h1 : log_lines
      (attempt env ctx.device.fd (key_events (env.gettimeofday w.ticks) c v) (w.writes + n) ::
        if (env.write (w.writes + n)).is_transient then [Effect.usleep 100] else []) = 0 := by
    unfold log_lines
    rw [List.count_eq_zero]
    intro he
    split_ifs at he <;> simp [write_failed, attempt] at he
  have h2 : log_lines
      (if (env.write (w.writes + n)).ret < 0 ∧ w.error_logged = false then [write_failed]
        else []) =
      (if (env.write (w.writes + n)).ret < 0 ∧ w.error_logged = false then 1 else 0) := by
    split_ifs <;> rfl
  simp only [world_after, log_lines_append, log_lines_retry_effects, h1, h2, Nat.add_zero]

theorem write_event_interrupted (env : Env) (fd : Int) (ev : input_event)
    (h : ∀ i, (env.write i).is_eintr) :
    ∀ (fuel : Nat) (w : World), write_event env fd ev fuel w = none := by
  intro fuel
  induction fuel with
  | zero => intro w; rfl
  | succ fuel ih =>
    intro w
    have h1 : (env.write w.writes).ret < 0 ∧ (env.write w.writes).errno = EINTR := h w.writes
    simp only [write_event, sys_write, h1, and_self, if_true]
    exact ih _

theorem process_keys_total (env : Env) (fuel : Nat) (ctx : vkbd_context_t)
    (hfuel : 101 ≤ fuel) (hr : observers_return env fuel) :
    ∀ (keys : List (Nat × Int)) (w : World),
      ∃ rets w', process_keys env fuel ctx keys w = some (rets, w') := by
  intro keys
  induction keys with
  | nil => intro w; exact ⟨[], w, rfl⟩
  | cons k ks ih =>
    intro w
    obtain ⟨r, w1, h1⟩ := process_key_total env fuel ctx k.1 k.2 w hfuel hr
    obtain ⟨rs, w', h2⟩ := ih w1
    exact ⟨r :: rs, w', by simp only [process_keys, h1, h2]⟩

/-! ## C4: the retry budget -/

/-- C4, as stated, fails with `remap_callback` registered: when every `write`
is interrupted the call never returns, whatever the fuel, because the
observer's `vkbd_send_key` retries its `write` for ever; and when every `write`
fails with `EAGAIN` the call makes 103 `write` calls, two of them in the
observer, before it returns -1. -/
theorem observer_writes_outside_retry_budget :
    (¬ ∃ (fuel : Nat) (r : Int) (w' : World),
      vkbd_process_key eintr_remap_env fuel one_callback_ctx 30 1 World.init = some (r, w')) ∧
    ∃ w', vkbd_process_key busy_remap_env 101 one_callback_ctx 30 1 World.init =
        some (-1, w') ∧
      write_attempts w'.trace = 103 := by
  constructor
  · rintro ⟨fuel, r, w', h⟩
    have hsend : ∀ w : World,
        vkbd_send_key eintr_remap_env fuel one_callback_ctx 30 1 w = none := by
      intro w
      have hw := write_event_interrupted eintr_remap_env one_callback_ctx.device.fd
        ⟨(sys_gettimeofday eintr_remap_env w).1, EV_KEY, 30, 1⟩
        (fun _ => ⟨show ((-1 : Int) < 0) by decide, rfl⟩) fuel
        (sys_gettimeofday eintr_remap_env w).2
      simp only [vkbd_send_key, hw]
      rfl
    have hobs : invoke_handlers eintr_remap_env fuel one_callback_ctx 30 1
        (List.range one_callback_ctx.handler_count) World.init = none := by
      show (match run_observer eintr_remap_env fuel one_callback_ctx (send_and_sync 30 1)
          (World.init.emit (Effect.call 0 7 30 1 0)) with
        | none => none
        | some w1 => invoke_handlers eintr_remap_env fuel one_callback_ctx 30 1 [] w1) = none
      simp only [send_and_sync, run_observer, hsend]
    have hnone :
        vkbd_process_key eintr_remap_env fuel one_callback_ctx 30 1 World.init = none := by
      simp only [vkbd_process_key, hobs]
      rfl
    rw [hnone] at h
    exact absurd h (by simp)
  · have hobs : invoke_handlers busy_remap_env 101 one_callback_ctx 30 1
        (List.range one_callback_ctx.handler_count) World.init =
        some ⟨2, 2, false,
          [Effect.call 0 7 30 1 0,
           Effect.write 3 [⟨⟨0, 0⟩, EV_KEY, 30, 1⟩] 24 (-1) 11,
           Effect.perror "vkbd_send_key: Failed to write key event",
           Effect.write 3 [⟨⟨1, 0⟩, EV_SYN, SYN_REPORT, 0⟩] 24 (-1) 11,
           Effect.perror "vkbd_sync: Failed to write sync event"]⟩ := by decide
    have hcall := process_key_at busy_remap_env 101 one_callback_ctx 30 1 World.init _ rfl
      (by decide) hobs 100
      ⟨by decide, fun _ _ => ⟨show ((-1 : Int) < 0) by decide, Or.inr rfl⟩, Or.inr rfl⟩
    refine ⟨_, hcall, ?_⟩
    rw [write_attempts_world_after]
    rfl

/-- C4 (amended): on an initialised context, once the callback loop of the call
has ended (its observers have returned), `vkbd_process_key` returns after at
most 101 `write` calls of its own loop, for every sequence of write outcomes;
when these attempts all fail with `EINTR` or `EAGAIN` it makes exactly 101 of
them and returns -1. The callback loop ends when the observers make no call of
the library or `write` is never interrupted `fuel` times in a row; with
observers that make no call of the library the call as a whole makes at most
101 `write` calls. -/
theorem retry_budget (env : Env) (fuel : Nat) (ctx : vkbd_context_t) (c : Nat) (v : Int)
    (w : World) (hinit : ctx.device.initialized = true) (hfuel : 101 ≤ fuel) :
    (∀ w1, invoke_handlers env fuel ctx c v (List.range ctx.handler_count) w = some w1 →
      ∃ r w', vkbd_process_key env fuel ctx c v w = some (r, w') ∧
        write_attempts w'.trace ≤ write_attempts w1.trace + 101 ∧
        ((∀ j, j < 101 → (env.write (w1.writes + j)).is_transient) →
          write_attempts w'.trace = write_attempts w1.trace + 101 ∧ r = -1)) ∧
    (observers_return env fuel →
      ∃ w1, invoke_handlers env fuel ctx c v (List.range ctx.handler_count) w = some w1) ∧
    (observers_quiet env →
      ∃ r w', vkbd_process_key env fuel ctx c v w = some (r, w') ∧
        write_attempts w'.trace ≤ write_attempts w.trace + 101 ∧
        ((∀ j, j < 101 → (env.write (w.writes + j)).is_transient) →
          write_attempts w'.trace = write_attempts w.trace + 101 ∧ r = -1)) := by
  have hloop : ∀ w1, invoke_handlers env fuel ctx c v (List.range ctx.handler_count) w =
      some w1 →
      ∃ r w', vkbd_process_key env fuel ctx c v w = some (r, w') ∧
        write_attempts w'.trace ≤ write_attempts w1.trace + 101 ∧
        ((∀ j, j < 101 → (env.write (w1.writes + j)).is_transient) →
          write_attempts w'.trace = write_attempts w1.trace + 101 ∧ r = -1) := by
    intro w1 hobs
    obtain ⟨n, hn, hcall⟩ := process_key_spec env fuel ctx c v w w1 hinit hfuel hobs
    refine ⟨_, _, hcall, ?_, ?_⟩
    · rw [write_attempts_world_after]
      have := hn.1
      omega
    · intro hall
      have h100 : decides env w1.writes 100 :=
        ⟨by omega, fun j hj => hall j (by omega), Or.inr rfl⟩
      have hn100 : n = 100 := decides_unique env _ _ _ hn h100
      subst hn100
      rw [write_attempts_world_after]
      exact ⟨rfl, (result_of_eq_neg_one env _).2 (hall 100 (by omega)).1⟩
  refine ⟨hloop, ?_, ?_⟩
  · intro hr
    exact invoke_handlers_total env fuel ctx c v hr _ w
  · intro hq
    obtain ⟨t, hobs, hsilent⟩ := invoke_handlers_quiet env fuel ctx c v hq
      (List.range ctx.handler_count) w
    obtain ⟨r, w', h1, h2, h3⟩ := hloop _ hobs
    have ht : write_attempts (w.trace ++ t) = write_attempts w.trace := by
      have h0 := silent_write_attempts t hsilent
      rw [write_attempts_append]
      simp only [write_attempts] at h0 ⊢
      omega
    simp only [ht] at h2 h3
    exact ⟨r, w', h1, h2, h3⟩

/-- C4 (amended), at a concrete input: a device that always answers `EAGAIN`,
no observer. -/
theorem retry_budget_witness :
    ∃ r w', vkbd_process_key busy_env 101 fresh_ctx 30 1 World.init = some (r, w') ∧
      write_attempts w'.trace = 101 ∧ r = -1 := by
  obtain ⟨r, w', h, _, hall⟩ :=
    (retry_budget busy_env 101 fresh_ctx 30 1 World.init rfl (by decide)).2.2
      (fun _ _ _ _ _ => trivial)
  obtain ⟨h1, h2⟩ := hall (fun j _ => by
    simp [WriteOutcome.is_transient, busy_env])
  exact ⟨r, w', h, by simpa [write_attempts, World.init] using h1, h2⟩

/-! ## C9: an error other than `EINTR` and `EAGAIN` ends the loop -/

/-- The world in which the write loop of `vkbd_process_key` starts, when the
observers make no call of the library, differs from the world of the call only
by the records of the invocations and of what the observers printed. -/
theorem invoke_handlers_quiet_state (env : Env) (fuel : Nat) (ctx : vkbd_context_t) (c : Nat)
    (v : Int) (hq : observers_quiet env) (l : List Nat) (w w1 : World)
    (hobs : invoke_handlers env fuel ctx c v l w = some w1) :
    w1.writes = w.writes ∧ w1.ticks = w.ticks ∧ w1.error_logged = w.error_logged ∧
      write_attempts w1.trace = write_attempts w.trace := by
  obtain ⟨t, ht, hsilent⟩ := invoke_handlers_quiet env fuel ctx c v hq l w
  rw [ht] at hobs
  simp only [Option.some.injEq] at hobs
  subst hobs
  refine ⟨rfl, rfl, rfl, ?_⟩
  show write_attempts (w.trace ++ t) = write_attempts w.trace
  have h0 := silent_write_attempts t hsilent
  rw [write_attempts_append]
  simp only [write_attempts] at h0 ⊢
  omega

/-- C9: on an initialised context, when the callback loop of a call has ended
in the world `w1` and attempt `k` of the write loop is made (the attempts
before it failed transiently) and fails with an error other than `EINTR` and
`EAGAIN`, the call returns -1 after `k + 1` `write` calls of its loop, and the
record of that attempt is the last action of the call but for the log line: no
later `write`, no `usleep`. With observers that make no call of the library
the loop starts where the call started, so that for `k = 0` the call makes
exactly one `write`. -/
theorem fatal_error_not_retried (env : Env) (fuel : Nat) (ctx : vkbd_context_t) (c : Nat)
    (v : Int) (w w1 : World) (hinit : ctx.device.initialized = true) (hfuel : 101 ≤ fuel)
    (hobs : invoke_handlers env fuel ctx c v (List.range ctx.handler_count) w = some w1)
    (k : Nat) (hk : k ≤ 100)
    (hbefore : ∀ j, j < k → (env.write (w1.writes + j)).is_transient)
    (hneg : (env.write (w1.writes + k)).ret < 0)
    (herrno : (env.write (w1.writes + k)).errno ≠ EINTR ∧
      (env.write (w1.writes + k)).errno ≠ EAGAIN) :
    ∃ w', vkbd_process_key env fuel ctx c v w = some (-1, w') ∧
      write_attempts w'.trace = write_attempts w1.trace + k + 1 ∧
      w'.trace = w1.trace ++
        retry_effects env ctx.device.fd (key_events (env.gettimeofday w1.ticks) c v) k
          w1.writes 0 ++
        attempt env ctx.device.fd (key_events (env.gettimeofday w1.ticks) c v)
            (w1.writes + k) ::
          (if w1.error_logged = false then [write_failed] else []) ∧
      (observers_quiet env →
        w1.writes = w.writes ∧ w1.error_logged = w.error_logged ∧
          write_attempts w'.trace = write_attempts w.trace + k + 1) := by
  have hnt : ¬ (env.write (w1.writes + k)).is_transient := by
    intro ht
    rcases ht.2 with h | h
    · exact herrno.1 h
    · exact herrno.2 h
  have hcall := process_key_at env fuel ctx c v w w1 hinit hfuel hobs k
    ⟨hk, hbefore, Or.inl hnt⟩
  rw [(result_of_eq_neg_one env _).2 hneg] at hcall
  refine ⟨_, hcall, write_attempts_world_after _ _ _ _ _ _, ?_, ?_⟩
  · simp [world_after, hnt, hneg]
  · intro hq
    obtain ⟨h1, _, h3, h4⟩ := invoke_handlers_quiet_state env fuel ctx c v hq _ w w1 hobs
    refine ⟨h1, h3, ?_⟩
    rw [write_attempts_world_after, h4]

/-- C9, at a concrete input: the device is gone (`ENODEV`) and the registered
observer is `remap_callback`, whose two `write` calls come before the one of
the loop. -/
theorem fatal_error_not_retried_witness :
    ∃ w1 w', invoke_handlers gone_remap_env 101 one_callback_ctx 30 1
        (List.range one_callback_ctx.handler_count) World.init = some w1 ∧
      vkbd_process_key gone_remap_env 101 one_callback_ctx 30 1 World.init = some (-1, w') ∧
      write_attempts w1.trace = 2 ∧ write_attempts w'.trace = 3 ∧
      w'.trace = w1.trace ++
        [Effect.write 3 (key_events ⟨2, 0⟩ 30 1) 48 (-1) 19, write_failed] := by
  have hobs : invoke_handlers gone_remap_env 101 one_callback_ctx 30 1
      (List.range one_callback_ctx.handler_count) World.init =
      some ⟨2, 2, false,
        [Effect.call 0 7 30 1 0,
         Effect.write 3 [⟨⟨0, 0⟩, EV_KEY, 30, 1⟩] 24 (-1) 19,
         Effect.perror "vkbd_send_key: Failed to write key event",
         Effect.write 3 [⟨⟨1, 0⟩, EV_SYN, SYN_REPORT, 0⟩] 24 (-1) 19,
         Effect.perror "vkbd_sync: Failed to write sync event"]⟩ := by decide
  obtain ⟨w', h1, h2, h3, _⟩ :=
    fatal_error_not_retried gone_remap_env 101 one_callback_ctx 30 1 World.init _ rfl
      (by decide) hobs 0 (by decide) (fun j hj => absurd hj (Nat.not_lt_zero j))
      (by decide) (by decide)
  exact ⟨_, w', hobs, h1, by decide, by rw [h2]; decide, by rw [h3]; rfl⟩

/-! ## C10: the log line of a failed write is written once -/

/-- C10: on an initialised context, over every sequence of `vkbd_process_key`
calls that returns, `error_logged` is set by the first call that returns -1 and
is never cleared, and the whole run writes the line
"vkbd_process_key: write failed" once if it started with the flag clear and
some call failed, never otherwise; the sequence returns whenever the observers
return. A call whose callback loop has ended in `w1` returns -1 exactly when
its write loop ends in a terminal write failure, and then logs only if the
flag was clear. -/
theorem write_failure_logged_once (env : Env) (fuel : Nat) (ctx : vkbd_context_t)
    (hinit : ctx.device.initialized = true) (hfuel : 101 ≤ fuel) :
    (∀ (keys : List (Nat × Int)) (w : World) (rets : List Int) (w' : World),
      process_keys env fuel ctx keys w = some (rets, w') →
        rets.length = keys.length ∧
        w'.error_logged = (w.error_logged || decide ((-1 : Int) ∈ rets)) ∧
        log_lines w'.trace = log_lines w.trace +
          (if w.error_logged = false ∧ (-1 : Int) ∈ rets then 1 else 0)) ∧
    (observers_return env fuel → ∀ (keys : List (Nat × Int)) (w : World),
      ∃ rets w', process_keys env fuel ctx keys w = some (rets, w')) ∧
    (∀ (c : Nat) (v : Int) (w w1 : World),
      invoke_handlers env fuel ctx c v (List.range ctx.handler_count) w = some w1 →
      ∃ r w', vkbd_process_key env fuel ctx c v w = some (r, w') ∧
        (r = -1 ↔ terminal_failure env w1.writes) ∧
        (terminal_failure env w1.writes →
          w'.error_logged = true ∧
          log_lines w'.trace = log_lines w.trace + (if w.error_logged = false then 1 else 0)) ∧
        (w.error_logged = true → w'.error_logged = true)) := by
  refine ⟨?_, fun hr => process_keys_total env fuel ctx hfuel hr, ?_⟩
  · intro keys
    induction keys with
    | nil =>
      intro w rets w' h
      simp only [process_keys, Option.some.injEq, Prod.mk.injEq] at h
      obtain ⟨h1, h2⟩ := h
      subst h1 h2
      exact ⟨rfl, by simp, by simp⟩
    | cons k ks ih =>
      intro w rets w' h
      cases hcall : vkbd_process_key env fuel ctx k.1 k.2 w with
      | none =>
        simp only [process_keys, hcall] at h
        exact absurd h (by simp)
      | some p =>
        obtain ⟨r, w0⟩ := p
        cases hrest : process_keys env fuel ctx ks w0 with
        | none =>
          simp only [process_keys, hcall, hrest] at h
          exact absurd h (by simp)
        | some q =>
          obtain ⟨rs, w2⟩ := q
          simp only [process_keys, hcall, hrest, Option.some.injEq, Prod.mk.injEq] at h
          obtain ⟨h1, h2⟩ := h
          subst h1 h2
          obtain ⟨hlen, hflag, hlog⟩ := ih w0 rs w2 hrest
          obtain ⟨w1, n, hobs, hn, hr, hw0⟩ :=
            process_key_inv env fuel ctx k.1 k.2 w r w0 hinit hfuel hcall
          obtain ⟨hel, t, ht, _, htl⟩ := invoke_handlers_frame env fuel ctx k.1 k.2 _ w w1 hobs
          have hl1 : log_lines w1.trace = log_lines w.trace := by
            rw [ht, log_lines_append, htl]
            rfl
          have hres := result_of_eq_neg_one env (env.write (w1.writes + n))
          refine ⟨by simp [hlen], ?_, ?_⟩
          · rw [hflag, hw0, hr]
            by_cases hneg : (env.write (w1.writes + n)).ret < 0
            · have : result_of env (env.write (w1.writes + n)) = -1 := hres.2 hneg
              simp [world_after, hneg, this]
            · have : ¬ ((-1 : Int) = result_of env (env.write (w1.writes + n))) :=
                fun h => hneg (hres.1 h.symm)
              simp [world_after, hneg, this, hel]
          · rw [hlog, hw0, hr, log_lines_world_after, hl1, hel]
            by_cases hneg : (env.write (w1.writes + n)).ret < 0
            · have : result_of env (env.write (w1.writes + n)) = -1 := hres.2 hneg
              cases hl : w.error_logged <;> simp [world_after, hneg, this, hl, hel]
            · have : ¬ ((-1 : Int) = result_of env (env.write (w1.writes + n))) :=
                fun h => hneg (hres.1 h.symm)
              cases hl : w.error_logged <;> simp [world_after, hneg, this, hl, hel]
  · intro c v w w1 hobs
    obtain ⟨n, hn, hcall⟩ := process_key_spec env fuel ctx c v w w1 hinit hfuel hobs
    obtain ⟨hel, t, ht, _, htl⟩ := invoke_handlers_frame env fuel ctx c v _ w w1 hobs
    have hl1 : log_lines w1.trace = log_lines w.trace := by
      rw [ht, log_lines_append, htl]
      rfl
    have hterm : terminal_failure env w1.writes ↔ (env.write (w1.writes + n)).ret < 0 := by
      constructor
      · rintro ⟨m, hm, hneg⟩
        rwa [decides_unique env _ _ _ hn hm]
      · intro hneg
        exact ⟨n, hn, hneg⟩
    refine ⟨_, _, hcall, ?_, ?_, ?_⟩
    · rw [hterm]
      exact result_of_eq_neg_one env _
    · intro ht
      have hneg := hterm.1 ht
      refine ⟨by simp [world_after, hneg], ?_⟩
      rw [log_lines_world_after, hl1, hel]
      simp [hneg]
    · intro hl
      simp [world_after, hel, hl]

/-- C10, at a concrete input: two consecutive calls on a device that is gone,
with `remap_callback` registered, both return -1 and leave one
"vkbd_process_key: write failed" line. -/
theorem write_failure_logged_once_witness :
    ∃ w', process_keys gone_remap_env 101 one_callback_ctx [(30, 1), (30, 0)] World.init =
        some ([-1, -1], w') ∧
      w'.error_logged = true ∧ log_lines w'.trace = 1 := by
  obtain ⟨hseq, htotal, _⟩ :=
    write_failure_logged_once gone_remap_env 101 one_callback_ctx rfl (by decide)
  obtain ⟨rets, w', h⟩ := htotal
    (Or.inr fun s => ⟨0, by decide, fun hh => by
      have h19 : (19 : Nat) = EINTR := hh.2
      exact absurd h19 (by decide)⟩)
    [(30, 1), (30, 0)] World.init
  obtain ⟨_, hflag, hlog⟩ := hseq _ _ _ _ h
  have hval : (process_keys gone_remap_env 101 one_callback_ctx [(30, 1), (30, 0)]
      World.init).map Prod.fst = some [-1, -1] := by decide
  rw [h] at hval
  simp only [Option.map_some', Option.some.injEq] at hval
  subst hval
  refine ⟨w', h, ?_, ?_⟩
  · rw [hflag]; rfl
  · rw [hlog]; rfl

/-! ## The callback registry: C5, C6, C7 -/

theorem register_ok (ctx : vkbd_context_t) (cb ud : Nat) (w : World) (hcb : cb ≠ 0)
    (hn : ctx.handler_count < MAX_CALLBACKS) :
    vkbd_register_callback ctx cb ud w =
      ((ctx.handler_count : Int),
        { ctx with handlers := ctx.handlers.set ctx.handler_count ⟨cb, ud, true⟩,
                   handler_count := ctx.handler_count + 1 }, w) := by
  have h : ¬ ctx.handler_count ≥ MAX_CALLBACKS := by omega
  simp only [vkbd_register_callback, hcb, h, if_false]

theorem register_full (ctx : vkbd_context_t) (cb ud : Nat) (w : World)
    (hn : MAX_CALLBACKS ≤ ctx.handler_count) :
    (vkbd_register_callback ctx cb ud w).1 = -1 ∧ (vkbd_register_callback ctx cb ud w).2.1 = ctx := by
  unfold vkbd_register_callback
  split_ifs with h1
  · exact ⟨rfl, rfl⟩
  · exact ⟨rfl, rfl⟩

theorem unregister_invalid (ctx : vkbd_context_t) (id : Int) (w : World)
    (h : id < 0 ∨ id ≥ (ctx.handler_count : Int)) :
    (vkbd_unregister_callback ctx id w).1 = -1 ∧ (vkbd_unregister_callback ctx id w).2.1 = ctx := by
  simp only [vkbd_unregister_callback, h, if_true, and_self]

theorem unregister_ok (ctx : vkbd_context_t) (id : Int) (w : World)
    (h : ¬ (id < 0 ∨ id ≥ (ctx.handler_count : Int))) :
    vkbd_unregister_callback ctx id w =
      (0,
        { ctx with
          handlers := ctx.handlers.set id.toNat
            ⟨(ctx.handlers[id.toNat]?.getD default).callback,
              (ctx.handlers[id.toNat]?.getD default).user_data, false⟩ },
        w) := by
  simp only [vkbd_unregister_callback, h, if_false]

theorem run_ops_count : ∀ (ops : List RegistryOp) (ctx : vkbd_context_t) (w : World),
    (run_ops ops ctx w).2.1.handler_count =
      ctx.handler_count + registrations ops (run_ops ops ctx w).1
  | [], _, _ => rfl
  | op :: ops, ctx, w => by
    simp only [run_ops]
    rw [run_ops_count ops]
    cases op with
    | register cb ud =>
      simp only [apply_op, registrations, vkbd_register_callback]
      split_ifs with h1 h2 h3 h4 h5
      all_goals (simp only; omega)
    | unregister id =>
      simp only [apply_op, registrations, vkbd_unregister_callback]
      split_ifs <;> rfl

theorem set_inactive_self (l : List vkbd_handler_t) (i : Nat) (h : vkbd_handler_t)
    (hi : l[i]? = some h) (ha : h.active = false) :
    l.set i ⟨h.callback, h.user_data, false⟩ = l := by
  apply List.ext_getElem?
  intro j
  rw [List.getElem?_set]
  split_ifs with h1 h2
  · subst h1
    rw [hi]
    cases h
    simp only at ha
    simp [ha]
  · subst h1
    rw [List.getElem?_eq_none (by omega)]
  · rfl

/-! ## C5: registration -/

/-- C5: on a context with `handler_count = n < 16`, registering a non-null
callback returns `n`, stores `(callback, user_data, true)` in slot `n`, makes
the count `n + 1` and leaves every other slot and the device as they were;
with `handler_count = 16` it returns -1 and leaves the context as it was,
whatever the active flags are; and after any sequence of registry calls on a
context that started with count 0 the id returned is the number of earlier
successful registrations. -/
theorem register_contract (ctx : vkbd_context_t) (callback user_data : Nat) (w : World)
    (hwf : ctx.wf) (hcb : callback ≠ 0) :
    (ctx.handler_count < MAX_CALLBACKS →
      (vkbd_register_callback ctx callback user_data w).1 = (ctx.handler_count : Int) ∧
      (vkbd_register_callback ctx callback user_data w).2.1.handlers[ctx.handler_count]? =
        some ⟨callback, user_data, true⟩ ∧
      (vkbd_register_callback ctx callback user_data w).2.1.handler_count =
        ctx.handler_count + 1 ∧
      (∀ i, i ≠ ctx.handler_count →
        (vkbd_register_callback ctx callback user_data w).2.1.handlers[i]? = ctx.handlers[i]?) ∧
      (vkbd_register_callback ctx callback user_data w).2.1.device = ctx.device) ∧
    (ctx.handler_count = MAX_CALLBACKS →
      (vkbd_register_callback ctx callback user_data w).1 = -1 ∧
      (vkbd_register_callback ctx callback user_data w).2.1 = ctx) ∧
    (∀ (ops : List RegistryOp) (ctx0 : vkbd_context_t) (w0 : World),
      ctx0.handler_count = 0 →
      registrations ops (run_ops ops ctx0 w0).1 < MAX_CALLBACKS →
      (vkbd_register_callback (run_ops ops ctx0 w0).2.1 callback user_data
          (run_ops ops ctx0 w0).2.2).1 =
        (registrations ops (run_ops ops ctx0 w0).1 : Int)) := by
  refine ⟨?_, ?_, ?_⟩
  · intro hn
    rw [register_ok ctx callback user_data w hcb hn]
    refine ⟨rfl, ?_, rfl, ?_, rfl⟩
    · exact List.getElem?_set_self (by rw [hwf.1]; exact hn)
    · intro i hi
      exact List.getElem?_set_ne (Ne.symm hi)
  · intro hn
    exact register_full ctx callback user_data w (by omega)
  · intro ops ctx0 w0 h0 hlt
    have hc := run_ops_count ops ctx0 w0
    rw [h0, Nat.zero_add] at hc
    rw [register_ok _ callback user_data _ hcb (by rw [hc]; exact hlt), hc]

/-- C5, at concrete inputs: the first registration on a fresh context gets id 0;
on a table of 16 slots, all inactive, registration is refused; after two
registrations and an unregistration the next id is 2. -/
theorem register_contract_witness :
    (vkbd_register_callback fresh_ctx 7 0 World.init).1 = 0 ∧
      (vkbd_register_callback full_ctx 7 0 World.init).1 = -1 ∧
      (vkbd_register_callback full_ctx 7 0 World.init).2.1 = full_ctx ∧
      (vkbd_register_callback
        (run_ops [RegistryOp.register 5 1, RegistryOp.register 6 2, RegistryOp.unregister 0]
          fresh_ctx World.init).2.1 7 0
        (run_ops [RegistryOp.register 5 1, RegistryOp.register 6 2, RegistryOp.unregister 0]
          fresh_ctx World.init).2.2).1 = 2 := by
  refine ⟨?_, ?_, ?_, ?_⟩
  · exact ((register_contract fresh_ctx 7 0 World.init (by decide) (by decide)).1
      (by decide)).1
  · exact ((register_contract full_ctx 7 0 World.init (by decide) (by decide)).2.1 rfl).1
  · exact ((register_contract full_ctx 7 0 World.init (by decide) (by decide)).2.1 rfl).2
  · exact (register_contract fresh_ctx 7 0 World.init (by decide) (by decide)).2.2
      [RegistryOp.register 5 1, RegistryOp.register 6 2, RegistryOp.unregister 0]
      fresh_ctx World.init rfl (by decide)

/-! ## C6: unregistration -/

/-- C6: `vkbd_unregister_callback` returns -1 and leaves the context as it was
exactly when `handler_id < 0` or `handler_id ≥ handler_count`; otherwise it
returns 0, clears the active flag of slot `handler_id` and changes nothing
else; on a slot that is already inactive it returns 0 and changes nothing. -/
theorem unregister_contract (ctx : vkbd_context_t) (handler_id : Int) (w : World)
    (hwf : ctx.wf) :
    (((vkbd_unregister_callback ctx handler_id w).1 = -1 ∧
        (vkbd_unregister_callback ctx handler_id w).2.1 = ctx) ↔
      (handler_id < 0 ∨ handler_id ≥ (ctx.handler_count : Int))) ∧
    (¬ (handler_id < 0 ∨ handler_id ≥ (ctx.handler_count : Int)) →
      (vkbd_unregister_callback ctx handler_id w).1 = 0 ∧
      (vkbd_unregister_callback ctx handler_id w).2.1.handler_count = ctx.handler_count ∧
      (vkbd_unregister_callback ctx handler_id w).2.1.device = ctx.device ∧
      (∃ h, ctx.handlers[handler_id.toNat]? = some h ∧
        (vkbd_unregister_callback ctx handler_id w).2.1.handlers[handler_id.toNat]? =
          some ⟨h.callback, h.user_data, false⟩) ∧
      (∀ i, i ≠ handler_id.toNat →
        (vkbd_unregister_callback ctx handler_id w).2.1.handlers[i]? = ctx.handlers[i]?) ∧
      ((ctx.handlers[handler_id.toNat]?.getD default).active = false →
        vkbd_unregister_callback ctx handler_id w = (0, ctx, w)) ∧
      vkbd_unregister_callback (vkbd_unregister_callback ctx handler_id w).2.1 handler_id
          (vkbd_unregister_callback ctx handler_id w).2.2 =
        (0, (vkbd_unregister_callback ctx handler_id w).2.1,
          (vkbd_unregister_callback ctx handler_id w).2.2)) := by
  constructor
  · constructor
    · intro h
      by_contra hv
      rw [unregister_ok ctx handler_id w hv] at h
      have h0 : (0 : Int) = -1 := h.1
      exact absurd h0 (by decide)
    · intro h
      exact unregister_invalid ctx handler_id w h
  · intro hv
    have hlt : handler_id.toNat < ctx.handlers.length := by
      rw [hwf.1]; have := hwf.2; omega
    have hslot : ctx.handlers[handler_id.toNat]? = some ctx.handlers[handler_id.toNat] :=
      List.getElem?_eq_getElem hlt
    have hidem : ∀ (c : vkbd_context_t) (w1 : World) (h : vkbd_handler_t),
        c.handler_count = ctx.handler_count → c.handlers[handler_id.toNat]? = some h →
        h.active = false → vkbd_unregister_callback c handler_id w1 = (0, c, w1) := by
      intro c w1 h hc hs ha
      rw [unregister_ok c handler_id w1 (by rw [hc]; exact hv), hs]
      simp only [Option.getD_some]
      rw [set_inactive_self _ _ h hs ha]
    rw [unregister_ok ctx handler_id w hv]
    refine ⟨rfl, rfl, rfl, ⟨_, hslot, ?_⟩, ?_, ?_, ?_⟩
    · rw [hslot]
      exact List.getElem?_set_self hlt
    · intro i hi
      exact List.getElem?_set_ne (Ne.symm hi)
    · intro ha
      rw [hslot] at ha
      have := hidem ctx w _ rfl hslot ha
      rw [unregister_ok ctx handler_id w hv] at this
      exact this
    · exact hidem _ w _ rfl (List.getElem?_set_self hlt) rfl

/-- C6, at concrete inputs: on a context with one registered callback, id 0 is
unregistered twice with result 0 and the same context, ids -1 and 1 are refused. -/
theorem unregister_contract_witness :
    (vkbd_unregister_callback (vkbd_register_callback fresh_ctx 7 0 World.init).2.1 0
        World.init).1 = 0 ∧
      ((vkbd_unregister_callback (vkbd_register_callback fresh_ctx 7 0 World.init).2.1 1
          World.init).1 = -1 ∧
        (vkbd_unregister_callback (vkbd_register_callback fresh_ctx 7 0 World.init).2.1 1
          World.init).2.1 = (vkbd_register_callback fresh_ctx 7 0 World.init).2.1) := by
  constructor
  · exact ((unregister_contract (vkbd_register_callback fresh_ctx 7 0 World.init).2.1 0
      World.init (by decide)).2 (by decide)).1
  · exact (unregister_contract (vkbd_register_callback fresh_ctx 7 0 World.init).2.1 1
      World.init (by decide)).1.2 (by decide)

/-! ## C7: nothing happens without a device -/

/-- C7: on a context whose device is not initialised, `vkbd_send_key`,
`vkbd_sync` and `vkbd_process_key` return -1 for every key code and value
without a `write`, and `vkbd_process_key` leaves the world untouched: no
observer is invoked whatever the callback table holds. The context
`vkbd_destroy` leaves is such a context. -/
theorem uninitialised_rejects (env : Env) (fuel : Nat) (ctx : vkbd_context_t) (key_code : Nat)
    (value : Int) (w : World) (h : ctx.device.initialized = false) :
    (∃ w1, vkbd_send_key env fuel ctx key_code value w = some (-1, w1) ∧
      w1.writes = w.writes ∧ write_attempts w1.trace = write_attempts w.trace ∧
      w1.trace.filter Effect.is_call = w.trace.filter Effect.is_call) ∧
    (∃ w1, vkbd_sync env fuel ctx w = some (-1, w1) ∧
      w1.writes = w.writes ∧ write_attempts w1.trace = write_attempts w.trace ∧
      w1.trace.filter Effect.is_call = w.trace.filter Effect.is_call) ∧
    vkbd_process_key env fuel ctx key_code value w = some (-1, w) ∧
    (∀ (ctx0 : vkbd_context_t) (w0 : World),
      (vkbd_destroy ctx0 w0).1.device.initialized = false) := by
  refine ⟨⟨w.emit (Effect.fprintf_stderr "vkbd_send_key: Device not initialized\n"),
      ?_, rfl, ?_, ?_⟩,
    ⟨w.emit (Effect.fprintf_stderr "vkbd_sync: Device not initialized\n"), ?_, rfl, ?_, ?_⟩,
    ?_, ?_⟩
  · simp only [vkbd_send_key, h, Bool.not_false, if_true]
  · simp [write_attempts, World.emit, Effect.is_write]
  · simp [World.emit, Effect.is_call]
  · simp only [vkbd_sync, h, Bool.not_false, if_true]
  · simp [write_attempts, World.emit, Effect.is_write]
  · simp [World.emit, Effect.is_call]
  · simp only [vkbd_process_key, h, Bool.not_false, if_true]
  · intro ctx0 w0
    unfold vkbd_destroy
    split_ifs with h1 h2
    · simpa using h1
    · rfl
    · rfl

/-- C7, at a concrete input: a context that was never initialised and holds
an active callback. -/
theorem uninitialised_rejects_witness :
    vkbd_process_key good_env 101 dead_ctx 30 1 World.init = some (-1, World.init) ∧
      (vkbd_send_key good_env 101 dead_ctx 30 1 World.init).map (fun r => r.1) = some (-1) ∧
      (vkbd_sync good_env 101 dead_ctx World.init).map (fun r => r.1) = some (-1) := by
  obtain ⟨⟨w1, h1, _⟩, ⟨w2, h2, _⟩, h3, _⟩ :=
    uninitialised_rejects good_env 101 dead_ctx 30 1 World.init rfl
  exact ⟨h3, by rw [h1]; rfl, by rw [h2]; rfl⟩

/-! ## C3: which observers are invoked -/

theorem filter_call_invocations (ctx : vkbd_context_t) (c : Nat) (v : Int) :
    (invocations ctx c v).filter Effect.is_call = invocations ctx c v := by
  rw [List.filter_eq_self]
  intro e he
  simp only [invocations, List.mem_map] at he
  obtain ⟨i, _, h⟩ := he
  subst h
  rfl

theorem test_bit_ne_zero (long_bits bit : Nat) (array : List Nat) :
    test_bit long_bits bit array ≠ 0 ↔
      (array[bit / long_bits]?.getD 0).testBit (bit % long_bits) = true := by
  simp [test_bit, LONG, OFFSET, Nat.testBit]

theorem has_keyboard_keys_iff (long_bits : Nat) (keybit : List Nat) :
    ∀ (n i : Nat), has_keyboard_keys long_bits keybit n i = true ↔
      ∃ j, i ≤ j ∧ j < i + n ∧ test_bit long_bits j keybit ≠ 0 := by
  intro n
  induction n with
  | zero =>
    intro i
    simp only [has_keyboard_keys, Bool.false_eq_true, false_iff]
    rintro ⟨j, h1, h2, _⟩
    omega
  | succ n ih =>
    intro i
    simp only [has_keyboard_keys]
    split_ifs with h
    · simp only [true_iff]
      exact ⟨i, Nat.le_refl i, by omega, h⟩
    · rw [ih]
      constructor
      · rintro ⟨j, h1, h2, h3⟩
        exact ⟨j, by omega, by omega, h3⟩
      · rintro ⟨j, h1, h2, h3⟩
        have hne : j ≠ i := by
          intro he
          subst he
          exact h h3
        exact ⟨j, by omega, by omega, h3⟩

/-- C13: when both capability queries succeed, `is_keyboard` is true exactly
when bit `EV_KEY` of the event-type bitmap is set and some bit `i` with
`KEY_Q ≤ i ≤ KEY_P` (16 to 25) of the key bitmap is set, bit `i` of a bitmap
being bit `i mod long_bits` of its word `i / long_bits`; when a query fails it
is false; and the words the code reads lie inside arrays of `NBITS(EV_MAX)`
and `NBITS(KEY_MAX)` words. -/
theorem is_keyboard_iff (long_bits : Nat) (a : DeviceAnswer) :
    (a.evbit_ret < 0 ∨ a.keybit_ret < 0 → is_keyboard long_bits a = false) ∧
    (0 ≤ a.evbit_ret → 0 ≤ a.keybit_ret →
      (is_keyboard long_bits a = true ↔
        (a.evbit[EV_KEY / long_bits]?.getD 0).testBit (EV_KEY % long_bits) = true ∧
        ∃ i, KEY_Q ≤ i ∧ i ≤ KEY_P ∧
          (a.keybit[i / long_bits]?.getD 0).testBit (i % long_bits) = true)) ∧
    LONG long_bits EV_KEY < NBITS long_bits EV_MAX ∧
    (∀ i, KEY_Q ≤ i → i ≤ KEY_P → LONG long_bits i < NBITS long_bits KEY_MAX) := by
  refine ⟨?_, ?_, ?_, ?_⟩
  · intro h
    unfold is_keyboard
    split_ifs with h1 h2 h3
    · rfl
    · rfl
    · rfl
    · omega
  · intro h1 h2
    have hev := test_bit_ne_zero long_bits EV_KEY a.evbit
    have hscan := has_keyboard_keys_iff long_bits a.keybit (KEY_P + 1 - KEY_Q) KEY_Q
    have hr : KEY_Q + (KEY_P + 1 - KEY_Q) = KEY_P + 1 := by decide
    unfold is_keyboard
    rw [if_neg (by omega)]
    by_cases hb : test_bit long_bits EV_KEY a.evbit = 0
    · rw [if_pos hb]
      have : ¬ (a.evbit[EV_KEY / long_bits]?.getD 0).testBit (EV_KEY % long_bits) = true :=
        fun h => (hev.2 h) hb
      simp [this]
    · rw [if_neg hb, if_neg (by omega), hscan, hr]
      constructor
      · rintro ⟨j, h3, h4, h5⟩
        exact ⟨hev.1 hb, j, h3, by omega, (test_bit_ne_zero _ _ _).1 h5⟩
      · rintro ⟨_, j, h3, h4, h5⟩
        exact ⟨j, h3, by omega, (test_bit_ne_zero _ _ _).2 h5⟩
  · unfold LONG NBITS
    have : EV_KEY / long_bits ≤ (EV_MAX - 1) / long_bits :=
      Nat.div_le_div_right (by decide)
    omega
  · intro i h1 h2
    unfold LONG NBITS
    have hk : i ≤ KEY_MAX - 1 := by
      have : KEY_P ≤ KEY_MAX - 1 := by decide
      omega
    have : i / long_bits ≤ (KEY_MAX - 1) / long_bits := Nat.div_le_div_right hk
    omega

/-! ## The device table -/

theorem add_device_full (long_bits : Nat) (l : event_listener_t) (path : String)
    (a : DeviceAnswer) (w : World) (h : MAX_INPUT_DEVICES ≤ l.device_count) :
    event_listener_add_device long_bits l path a w =
      (-1, l, w.emit (Effect.fprintf_stderr "event_listener_add_device: Too many devices\n")) := by
  have h1 : l.device_count ≥ MAX_INPUT_DEVICES := h
  simp only [event_listener_add_device, h1, if_true]

theorem add_device_accepted (long_bits : Nat) (l : event_listener_t) (path : String)
    (a : DeviceAnswer) (w : World) (h : l.device_count < MAX_INPUT_DEVICES)
    (ha : a.accepted long_bits = true) :
    (event_listener_add_device long_bits l path a w).1 = 0 ∧
      (event_listener_add_device long_bits l path a w).2.1 =
        { l with
          devices := l.devices.set l.device_count
            ⟨a.open_ret, strncpy 255 path, strncpy 255 (a.name.getD "Unknown"), true⟩,
          device_count := l.device_count + 1 } := by
  simp only [DeviceAnswer.accepted, Bool.and_eq_true, decide_eq_true_eq] at ha
  obtain ⟨⟨h1, h2⟩, h3⟩ := ha
  have hc : ¬ l.device_count ≥ MAX_INPUT_DEVICES := by omega
  have ho : ¬ a.open_ret < 0 := by omega
  have he : ¬ a.epoll_ctl_ret < 0 := by omega
  simp only [event_listener_add_device, hc, ho, he, h2, if_false, Bool.not_true,
    Bool.false_eq_true, and_self]

theorem add_device_rejected (long_bits : Nat) (l : event_listener_t) (path : String)
    (a : DeviceAnswer) (w : World) (ha : a.accepted long_bits = false) :
    (event_listener_add_device long_bits l path a w).1 = -1 ∧
      (event_listener_add_device long_bits l path a w).2.1 = l := by
  by_cases hc : l.device_count ≥ MAX_INPUT_DEVICES
  · simp only [event_listener_add_device, hc, if_true, and_self]
  · by_cases ho : a.open_ret < 0
    · simp only [event_listener_add_device, hc, ho, if_true, if_false, and_self]
    · cases hk : is_keyboard long_bits a
      · simp only [event_listener_add_device, hc, ho, hk, if_true, if_false, Bool.not_false,
          and_self]
      · by_cases he : a.epoll_ctl_ret < 0
        · simp only [event_listener_add_device, hc, ho, hk, he, if_true, if_false,
            Bool.not_true, Bool.false_eq_true, and_self]
        · exfalso
          have : a.accepted long_bits = true := by
            simp only [DeviceAnswer.accepted, Bool.and_eq_true, decide_eq_true_eq]
            exact ⟨⟨by omega, hk⟩, by omega⟩
          rw [ha] at this
          exact absurd this (by decide)

theorem add_device_frame (long_bits : Nat) (l : event_listener_t) (path : String)
    (a : DeviceAnswer) (w : World) :
    (event_listener_add_device long_bits l path a w).2.1.running = l.running ∧
      (event_listener_add_device long_bits l path a w).2.1.devices.length = l.devices.length ∧
      ((event_listener_add_device long_bits l path a w).2.1.device_count = l.device_count ∨
        (l.device_count < MAX_INPUT_DEVICES ∧
          (event_listener_add_device long_bits l path a w).2.1.device_count =
            l.device_count + 1)) := by
  by_cases hc : MAX_INPUT_DEVICES ≤ l.device_count
  · rw [add_device_full long_bits l path a w hc]
    exact ⟨rfl, rfl, Or.inl rfl⟩
  · cases ha : a.accepted long_bits
    · rw [(add_device_rejected long_bits l path a w ha).2]
      exact ⟨rfl, rfl, Or.inl rfl⟩
    · rw [(add_device_accepted long_bits l path a w (by omega) ha).2]
      exact ⟨rfl, by simp, Or.inr ⟨by omega, rfl⟩⟩

theorem add_device_wf (long_bits : Nat) (l : event_listener_t) (path : String)
    (a : DeviceAnswer) (w : World) (hwf : l.wf) :
    (event_listener_add_device long_bits l path a w).2.1.wf := by
  obtain ⟨_, h2, h3⟩ := add_device_frame long_bits l path a w
  refine ⟨by rw [h2]; exact hwf.1, ?_⟩
  have := hwf.2
  rcases h3 with h3 | ⟨h3, h4⟩ <;> omega

theorem keyboards_cons (long_bits : Nat) (e : String × DeviceAnswer)
    (es : List (String × DeviceAnswer)) :
    keyboards long_bits (e :: es) =
      (if e.1.data.take 5 = "event".data ∧ e.2.accepted long_bits = true then 1 else 0) +
        keyboards long_bits es := by
  unfold keyboards
  rw [List.filter_cons]
  split_ifs with h1 h2 h2
  · simp only [List.length_cons]; omega
  · exfalso
    apply h2
    simpa using h1
  · exfalso
    apply h1
    simpa using h2
  · omega

/-- The `readdir` loop of `event_listener_auto_detect`: the table takes the
accepted devices until it is full, and the local count goes up with it. -/
theorem auto_detect_fold (long_bits : Nat) :
    ∀ (entries : List (String × DeviceAnswer)) (cnt : Int) (l : event_listener_t) (w : World),
      l.device_count ≤ MAX_INPUT_DEVICES →
      (entries.foldl (auto_detect_entry long_bits) (cnt, l, w)).2.1.device_count =
          min (l.device_count + keyboards long_bits entries) MAX_INPUT_DEVICES ∧
        (entries.foldl (auto_detect_entry long_bits) (cnt, l, w)).1 =
          cnt + ((min (l.device_count + keyboards long_bits entries) MAX_INPUT_DEVICES -
            l.device_count : Nat) : Int) ∧
        (entries.foldl (auto_detect_entry long_bits) (cnt, l, w)).2.1.running = l.running ∧
        (entries.foldl (auto_detect_entry long_bits) (cnt, l, w)).2.1.devices.length =
          l.devices.length := by
  intro entries
  induction entries with
  | nil =>
    intro cnt l w h
    have hk : keyboards long_bits [] = 0 := rfl
    have hm : min (l.device_count + 0) MAX_INPUT_DEVICES = l.device_count := by omega
    rw [List.foldl_nil, hk, hm]
    refine ⟨rfl, ?_, rfl, rfl⟩
    simp
  | cons e es ih =>
    intro cnt l w h
    rw [List.foldl_cons, keyboards_cons]
    by_cases hname : e.1.data.take 5 = "event".data
    · by_cases hc : MAX_INPUT_DEVICES ≤ l.device_count
      · have hstep : auto_detect_entry long_bits (cnt, l, w) e =
            (cnt, l, w.emit (Effect.fprintf_stderr
              "event_listener_add_device: Too many devices\n")) := by
          simp only [auto_detect_entry, hname, ne_eq, not_true_eq_false, if_false,
            add_device_full long_bits l _ e.2 w hc]
          rfl
        rw [hstep]
        obtain ⟨h1, h2, h3, h4⟩ := ih cnt l
          (w.emit (Effect.fprintf_stderr "event_listener_add_device: Too many devices\n")) h
        refine ⟨?_, ?_, h3, h4⟩
        · rw [h1]; split_ifs <;> omega
        · rw [h2]
          have : min (l.device_count + keyboards long_bits es) MAX_INPUT_DEVICES =
              min (l.device_count + ((if e.1.data.take 5 = "event".data ∧
                e.2.accepted long_bits = true then 1 else 0) + keyboards long_bits es))
                MAX_INPUT_DEVICES := by
            split_ifs <;> omega
          rw [this]
      · cases ha : e.2.accepted long_bits
        · obtain ⟨r1, r2⟩ := add_device_rejected long_bits l
            ("/dev/input" ++ "/" ++ e.1) e.2 w ha
          have hstep : auto_detect_entry long_bits (cnt, l, w) e =
              (cnt, l, (event_listener_add_device long_bits l
                ("/dev/input" ++ "/" ++ e.1) e.2 w).2.2) := by
            simp only [auto_detect_entry, hname, ne_eq, not_true_eq_false, if_false, r1]
            rw [if_neg (by decide)]
            simp only [Prod.mk.injEq, true_and]
            exact Prod.ext r2 rfl
          rw [hstep]
          obtain ⟨h1, h2, h3, h4⟩ := ih cnt l (event_listener_add_device long_bits l
            ("/dev/input" ++ "/" ++ e.1) e.2 w).2.2 h
          simp only [hname, true_and, Bool.false_eq_true, if_false, Nat.zero_add]
          exact ⟨h1, h2, h3, h4⟩
        · obtain ⟨r1, r2⟩ := add_device_accepted long_bits l
            ("/dev/input" ++ "/" ++ e.1) e.2 w (by omega) ha
          have hstep : auto_detect_entry long_bits (cnt, l, w) e =
              (cnt + 1, (event_listener_add_device long_bits l
                ("/dev/input" ++ "/" ++ e.1) e.2 w).2.1,
                (event_listener_add_device long_bits l
                  ("/dev/input" ++ "/" ++ e.1) e.2 w).2.2) := by
            simp only [auto_detect_entry, hname, ne_eq, not_true_eq_false, if_false, r1,
              if_true]
          rw [hstep]
          have hcount : (event_listener_add_device long_bits l
              ("/dev/input" ++ "/" ++ e.1) e.2 w).2.1.device_count =
              l.device_count + 1 := by rw [r2]
          have hrun : (event_listener_add_device long_bits l
              ("/dev/input" ++ "/" ++ e.1) e.2 w).2.1.running = l.running := by
            rw [r2]
          have hlen : (event_listener_add_device long_bits l
              ("/dev/input" ++ "/" ++ e.1) e.2 w).2.1.devices.length =
              l.devices.length := by rw [r2]; simp
          obtain ⟨h1, h2, h3, h4⟩ := ih (cnt + 1) (event_listener_add_device long_bits l
            ("/dev/input" ++ "/" ++ e.1) e.2 w).2.1
            (event_listener_add_device long_bits l
              ("/dev/input" ++ "/" ++ e.1) e.2 w).2.2 (by rw [hcount]; omega)
          rw [hcount] at h1 h2
          simp only [hname, true_and, if_true]
          refine ⟨?_, ?_, by rw [h3, hrun], by rw [h4, hlen]⟩
          · rw [h1]; omega
          · rw [h2]; omega
    · have hstep : auto_detect_entry long_bits (cnt, l, w) e = (cnt, l, w) := by
        simp only [auto_detect_entry, hname, ne_eq, not_false_eq_true, if_true]
      rw [hstep]
      simp only [hname, false_and, if_false, Nat.zero_add]
      exact ih cnt l w h

theorem destroy_fold : ∀ (is : List Nat) (s : event_listener_t × World),
    (is.foldl destroy_device s).1.devices.length = s.1.devices.length ∧
      (is.foldl destroy_device s).1.running = s.1.running ∧
      (is.foldl destroy_device s).1.epoll_fd = s.1.epoll_fd := by
  intro is
  induction is with
  | nil => intro s; exact ⟨rfl, rfl, rfl⟩
  | cons i is ih =>
    intro s
    rw [List.foldl_cons]
    obtain ⟨h1, h2, h3⟩ := ih (destroy_device s i)
    rw [h1, h2, h3]
    simp only [destroy_device]
    split_ifs
    · exact ⟨by simp, rfl, rfl⟩
    · exact ⟨rfl, rfl, rfl⟩

theorem destroy_frame (l : event_listener_t) (w : World) :
    (event_listener_destroy l w).1.device_count = 0 ∧
      (event_listener_destroy l w).1.devices.length = l.devices.length ∧
      (event_listener_destroy l w).1.running = false := by
  obtain ⟨h1, h2, _⟩ := destroy_fold (List.range l.device_count)
    ({ l with running := false }, w)
  refine ⟨rfl, ?_, ?_⟩
  · simp only [event_listener_destroy]
    split_ifs <;> exact h1
  · simp only [event_listener_destroy]
    split_ifs <;> exact h2

theorem init_frame (l : event_listener_t) (vkbd_ctx : Nat) (r : Int) (w : World)
    (h : vkbd_ctx ≠ 0) :
    (event_listener_init l vkbd_ctx r w).2.1.wf ∧
      (event_listener_init l vkbd_ctx r w).2.1.device_count = 0 ∧
      (event_listener_init l vkbd_ctx r w).2.1.running = false := by
  unfold event_listener_init
  rw [if_neg h]
  simp only
  split_ifs
  · exact ⟨⟨by simp, Nat.zero_le _⟩, rfl, rfl⟩
  · exact ⟨⟨by simp, Nat.zero_le _⟩, rfl, rfl⟩

theorem auto_detect_frame (long_bits : Nat) (l : event_listener_t)
    (dir : Option (List (String × DeviceAnswer))) (w : World)
    (h : l.device_count ≤ MAX_INPUT_DEVICES) :
    (event_listener_auto_detect long_bits l dir w).2.1.device_count ≤ MAX_INPUT_DEVICES ∧
      (event_listener_auto_detect long_bits l dir w).2.1.devices.length = l.devices.length ∧
      (event_listener_auto_detect long_bits l dir w).2.1.running = l.running := by
  cases dir with
  | none => exact ⟨h, rfl, rfl⟩
  | some entries =>
    obtain ⟨h1, _, h3, h4⟩ := auto_detect_fold long_bits entries 0 l w h
    simp only [event_listener_auto_detect]
    split_ifs
    · exact ⟨by simp only; rw [h1]; omega, h4, h3⟩
    · exact ⟨by simp only; rw [h1]; omega, h4, h3⟩

theorem apply_listener_op_wf (long_bits : Nat) (l : event_listener_t) (w : World)
    (op : ListenerOp) (hwf : l.wf) : (apply_listener_op long_bits l w op).1.wf := by
  cases op with
  | init c r =>
    simp only [apply_listener_op]
    by_cases hc : c = 0
    · subst hc
      exact hwf
    · exact (init_frame l c r w hc).1
  | add_device path a => exact add_device_wf long_bits l path a w hwf
  | auto_detect dir =>
    obtain ⟨h1, h2, _⟩ := auto_detect_frame long_bits l dir w hwf.2
    exact ⟨by rw [← hwf.1]; exact h2, h1⟩
  | destroy =>
    obtain ⟨h1, h2, _⟩ := destroy_frame l w
    exact ⟨by rw [← hwf.1]; exact h2, by
      show (event_listener_destroy l w).1.device_count ≤ MAX_INPUT_DEVICES
      rw [h1]; exact Nat.zero_le _⟩

theorem run_listener_ops_wf (long_bits : Nat) :
    ∀ (ops : List ListenerOp) (l : event_listener_t) (w : World),
      l.wf → (run_listener_ops long_bits ops l w).1.wf
  | [], _, _, h => h
  | op :: ops, l, w, h => by
    simp only [run_listener_ops]
    exact run_listener_ops_wf long_bits ops _ _ (apply_listener_op_wf long_bits l w op h)

/-! ## C11: the device table never holds more than 16 devices -/

/-- C11: with `device_count = MAX_INPUT_DEVICES` (16) `event_listener_add_device`
returns -1, makes no `open` (its only action is the message) and leaves the
listener as it was; a call that returns 0 has stored the new descriptor with
`active = true` at index `device_count`, left the other slots alone and made
the count one more; and the count stays at most 16 (it is a natural number, so
at least 0) over every sequence of init, add_device, auto_detect and destroy
calls. -/
theorem device_table_bounded (long_bits : Nat) (l : event_listener_t) (path : String)
    (a : DeviceAnswer) (w : World) (hwf : l.wf) :
    (l.device_count = MAX_INPUT_DEVICES →
      event_listener_add_device long_bits l path a w =
        (-1, l,
          w.emit (Effect.fprintf_stderr "event_listener_add_device: Too many devices\n")) ∧
      (event_listener_add_device long_bits l path a w).2.2.trace.filter Effect.is_open =
        w.trace.filter Effect.is_open) ∧
    ((event_listener_add_device long_bits l path a w).1 = 0 →
      l.device_count < MAX_INPUT_DEVICES ∧
      (event_listener_add_device long_bits l path a w).2.1.device_count = l.device_count + 1 ∧
      (event_listener_add_device long_bits l path a w).2.1.devices[l.device_count]? =
        some ⟨a.open_ret, strncpy 255 path, strncpy 255 (a.name.getD "Unknown"), true⟩ ∧
      (∀ i, i ≠ l.device_count →
        (event_listener_add_device long_bits l path a w).2.1.devices[i]? = l.devices[i]?)) ∧
    ((event_listener_add_device long_bits l path a w).1 ≠ 0 →
      (event_listener_add_device long_bits l path a w).1 = -1 ∧
      (event_listener_add_device long_bits l path a w).2.1 = l) ∧
    (∀ (ops : List ListenerOp) (w0 : World),
      (run_listener_ops long_bits ops l w0).1.device_count ≤ MAX_INPUT_DEVICES) ∧
    (∀ (ops : List ListenerOp) (l0 : event_listener_t) (c : Nat) (r : Int) (w0 : World),
      c ≠ 0 →
      (run_listener_ops long_bits (ListenerOp.init c r :: ops) l0 w0).1.device_count ≤
        MAX_INPUT_DEVICES) := by
  have hcases : (event_listener_add_device long_bits l path a w).1 = 0 →
      l.device_count < MAX_INPUT_DEVICES ∧ a.accepted long_bits = true := by
    intro h0
    by_cases hc : MAX_INPUT_DEVICES ≤ l.device_count
    · rw [add_device_full long_bits l path a w hc] at h0
      have h1 : (-1 : Int) = 0 := h0
      exact absurd h1 (by decide)
    · cases ha : a.accepted long_bits
      · rw [(add_device_rejected long_bits l path a w ha).1] at h0
        exact absurd h0 (by decide)
      · exact ⟨by omega, rfl⟩
  refine ⟨?_, ?_, ?_, ?_, ?_⟩
  · intro hfull
    rw [add_device_full long_bits l path a w (by omega)]
    exact ⟨rfl, by simp [World.emit, Effect.is_open]⟩
  · intro h0
    obtain ⟨hlt, ha⟩ := hcases h0
    rw [(add_device_accepted long_bits l path a w hlt ha).2]
    refine ⟨hlt, rfl, ?_, ?_⟩
    · exact List.getElem?_set_self (by rw [hwf.1]; exact hlt)
    · intro i hi
      exact List.getElem?_set_ne (Ne.symm hi)
  · intro hne
    by_cases hc : MAX_INPUT_DEVICES ≤ l.device_count
    · rw [add_device_full long_bits l path a w hc]
      exact ⟨rfl, rfl⟩
    · cases ha : a.accepted long_bits
      · exact add_device_rejected long_bits l path a w ha
      · exact absurd (add_device_accepted long_bits l path a w (by omega) ha).1 hne
  · intro ops w0
    exact (run_listener_ops_wf long_bits ops l w0 hwf).2
  · intro ops l0 c r w0 hc
    simp only [run_listener_ops, apply_listener_op]
    exact (run_listener_ops_wf long_bits ops _ _ (init_frame l0 c r w0 hc).1).2

/-- C11, at concrete inputs: a keyboard is added to a fresh listener at index
0; on a table of 16 devices the 17th is refused and the count stays 16. -/
theorem device_table_bounded_witness :
    (event_listener_add_device 64 fresh_listener "/dev/input/event0" keyboard_answer
        World.init).2.1.device_count = 1 ∧
      (event_listener_add_device 64 { fresh_listener with device_count := 16 }
        "/dev/input/event16" keyboard_answer World.init).1 = -1 ∧
      (event_listener_add_device 64 { fresh_listener with device_count := 16 }
        "/dev/input/event16" keyboard_answer World.init).2.1.device_count = 16 := by
  have h1 := device_table_bounded 64 fresh_listener "/dev/input/event0" keyboard_answer
    World.init (by decide)
  have h2 := device_table_bounded 64 { fresh_listener with device_count := 16 }
    "/dev/input/event16" keyboard_answer World.init (by decide)
  refine ⟨(h1.2.1 (by decide)).2.1, ?_, ?_⟩
  · rw [(h2.1 rfl).1]
  · rw [(h2.1 rfl).1]

/-! ## C12: what auto-detection returns -/

/-- C12, as stated, fails: of 17 candidates all 17 pass `is_keyboard` (and open,
and are taken by `epoll_ctl`), and `event_listener_auto_detect` on a fresh
listener returns 16 with `device_count = 16`. -/
theorem seventeen_keyboards_sixteen_added :
    seventeen_keyboards.length = 17 ∧
      (∀ e, e ∈ seventeen_keyboards → is_keyboard 64 e.2 = true) ∧
      (event_listener_auto_detect 64 fresh_listener (some seventeen_keyboards)
        World.init).1 = 16 ∧
      (event_listener_auto_detect 64 fresh_listener (some seventeen_keyboards)
        World.init).2.1.device_count = 16 := by
  obtain ⟨h1, h2, _, _⟩ :=
    auto_detect_fold 64 seventeen_keyboards 0 fresh_listener World.init (by decide)
  have hk : keyboards 64 seventeen_keyboards = 17 := by decide
  have hm : min (fresh_listener.device_count + 17) MAX_INPUT_DEVICES = 16 := by decide
  have hd : ((16 - fresh_listener.device_count : Nat) : Int) = 16 := by decide
  rw [hk, hm] at h1 h2
  rw [hd] at h2
  refine ⟨rfl, by decide, ?_, ?_⟩
  · simp only [event_listener_auto_detect, h2]
    rfl
  · simp only [event_listener_auto_detect, h2]
    rw [if_neg (by decide)]
    exact h1

/-- C12 (amended): on a listener with `device_count = 0`, let `K` be the number
of directory entries named `event...` whose device opens, passes `is_keyboard`
and is taken by `epoll_ctl`. If `K = 0`, `event_listener_auto_detect` returns
-1 and `device_count` stays 0; otherwise it returns `min K 16` and
`device_count` is `min K 16`. When the directory cannot be opened it returns
-1 and leaves the listener as it was. -/
theorem auto_detect_counts (long_bits : Nat) (l : event_listener_t)
    (entries : List (String × DeviceAnswer)) (w : World) (h0 : l.device_count = 0) :
    (keyboards long_bits entries = 0 →
      (event_listener_auto_detect long_bits l (some entries) w).1 = -1 ∧
      (event_listener_auto_detect long_bits l (some entries) w).2.1.device_count = 0) ∧
    (0 < keyboards long_bits entries →
      (event_listener_auto_detect long_bits l (some entries) w).1 =
        ((min (keyboards long_bits entries) MAX_INPUT_DEVICES : Nat) : Int) ∧
      (event_listener_auto_detect long_bits l (some entries) w).2.1.device_count =
        min (keyboards long_bits entries) MAX_INPUT_DEVICES) ∧
    ((event_listener_auto_detect long_bits l none w).1 = -1 ∧
      (event_listener_auto_detect long_bits l none w).2.1 = l) := by
  obtain ⟨h1, h2, _, _⟩ := auto_detect_fold long_bits entries 0 l w (by rw [h0]; exact Nat.zero_le _)
  rw [h0, Nat.zero_add, Nat.sub_zero] at h2
  rw [h0, Nat.zero_add] at h1
  rw [Int.zero_add] at h2
  refine ⟨?_, ?_, ⟨rfl, rfl⟩⟩
  · intro hk
    rw [hk] at h1 h2
    have hz : ((min 0 MAX_INPUT_DEVICES : Nat) : Int) = 0 := by decide
    rw [hz] at h2
    simp only [event_listener_auto_detect, h2, if_true]
    exact ⟨trivial, h1⟩
  · intro hk
    have hpos : 0 < min (keyboards long_bits entries) MAX_INPUT_DEVICES := by
      have : 0 < MAX_INPUT_DEVICES := by decide
      omega
    have hne : ¬ ((min (keyboards long_bits entries) MAX_INPUT_DEVICES : Nat) : Int) = 0 := by
      omega
    simp only [event_listener_auto_detect, h2]
    rw [if_neg hne]
    exact ⟨rfl, h1⟩

/-- C12 (amended), at a concrete input: a mouse, an entry that is not an event
device and a keyboard; one device is added. -/
theorem auto_detect_counts_witness :
    (event_listener_auto_detect 64 fresh_listener
        (some [("event0", mouse_answer), ("mice", keyboard_answer),
          ("event1", keyboard_answer)]) World.init).1 = 1 ∧
      (event_listener_auto_detect 64 fresh_listener
        (some [("event0", mouse_answer), ("mice", keyboard_answer),
          ("event1", keyboard_answer)]) World.init).2.1.device_count = 1 := by
  have h := (auto_detect_counts 64 fresh_listener
    [("event0", mouse_answer), ("mice", keyboard_answer), ("event1", keyboard_answer)]
    World.init rfl).2.1 (by decide)
  exact ⟨by rw [h.1]; decide, by rw [h.2]; decide⟩

/-! ## C14: what the capture loop forwards -/

theorem forwarded_append (a b : List input_event) :
    forwarded (a ++ b) = forwarded a ++ forwarded b := by
  simp [forwarded]

theorem process_keys_append (env : Env) (fuel : Nat) (ctx : vkbd_context_t) :
    ∀ (a b : List (Nat × Int)) (w w1 w2 : World) (ra rb : List Int),
      process_keys env fuel ctx a w = some (ra, w1) →
      process_keys env fuel ctx b w1 = some (rb, w2) →
      process_keys env fuel ctx (a ++ b) w = some (ra ++ rb, w2) := by
  intro a
  induction a with
  | nil =>
    intro b w w1 w2 ra rb ha hb
    simp only [process_keys, Option.some.injEq, Prod.mk.injEq] at ha
    obtain ⟨h1, h2⟩ := ha
    subst h1 h2
    exact hb
  | cons k ks ih =>
    intro b w w1 w2 ra rb ha hb
    cases hcall : vkbd_process_key env fuel ctx k.1 k.2 w with
    | none =>
      simp only [process_keys, hcall] at ha
      exact absurd ha (by simp)
    | some p =>
      obtain ⟨r, w0⟩ := p
      cases hrest : process_keys env fuel ctx ks w0 with
      | none =>
        simp only [process_keys, hcall, hrest] at ha
        exact absurd ha (by simp)
      | some q =>
        obtain ⟨rs, w3⟩ := q
        simp only [process_keys, hcall, hrest, Option.some.injEq, Prod.mk.injEq] at ha
        obtain ⟨h1, h2⟩ := ha
        subst h1 h2
        have := ih b w0 w3 w2 rs rb hrest hb
        show process_keys env fuel ctx (k :: (ks ++ b)) w = _
        simp only [process_keys, hcall, this]
        rfl

/-- The inner loop: the calls it made are the key events read, in order, and
its world is that of these calls made one after the other. -/
theorem drain_device_spec (env : Env) (fuel : Nat) (ctx : vkbd_context_t) :
    ∀ (evs : List input_event) (w : World) (calls : List (Nat × Int × Int)) (w' : World),
      drain_device env fuel ctx evs w = some (calls, w') →
      calls.map (fun c => (c.1, c.2.1)) = forwarded evs ∧
        process_keys env fuel ctx (forwarded evs) w = some (calls.map (fun c => c.2.2), w') := by
  intro evs
  induction evs with
  | nil =>
    intro w calls w' h
    simp only [drain_device, Option.some.injEq, Prod.mk.injEq] at h
    obtain ⟨h1, h2⟩ := h
    subst h1 h2
    exact ⟨rfl, rfl⟩
  | cons ev evs ih =>
    intro w calls w' h
    by_cases hk : ev.type = EV_KEY
    · have hb : (ev.type == EV_KEY) = true := by simp [hk]
      have hf : forwarded (ev :: evs) = (ev.code, ev.value) :: forwarded evs := by
        simp only [forwarded]
        rw [List.filter_cons, if_pos hb]
        rfl
      simp only [drain_device, hk, if_true] at h
      cases hcall : vkbd_process_key env fuel ctx ev.code ev.value w with
      | none =>
        simp only [hcall] at h
        exact absurd h (by simp)
      | some p =>
        obtain ⟨r, w0⟩ := p
        cases hrest : drain_device env fuel ctx evs w0 with
        | none =>
          simp only [hcall, hrest] at h
          exact absurd h (by simp)
        | some q =>
          obtain ⟨cs, w3⟩ := q
          simp only [hcall, hrest, Option.some.injEq, Prod.mk.injEq] at h
          obtain ⟨h1, h2⟩ := h
          subst h1 h2
          obtain ⟨hc, hp⟩ := ih w0 cs w3 hrest
          rw [hf]
          refine ⟨by simp only [List.map_cons, hc], ?_⟩
          simp only [process_keys, hcall, hp, List.map_cons]
    · have hb : ¬ (ev.type == EV_KEY) = true := by simp [hk]
      have hf : forwarded (ev :: evs) = forwarded evs := by
        simp only [forwarded]
        rw [List.filter_cons, if_neg hb]
      simp only [drain_device, hk, if_false] at h
      rw [hf]
      exact ih w calls w' h

theorem drain_device_total (env : Env) (fuel : Nat) (ctx : vkbd_context_t)
    (hfuel : 101 ≤ fuel) (hr : observers_return env fuel) :
    ∀ (evs : List input_event) (w : World),
      ∃ calls w', drain_device env fuel ctx evs w = some (calls, w') := by
  intro evs
  induction evs with
  | nil => intro w; exact ⟨[], w, rfl⟩
  | cons ev evs ih =>
    intro w
    by_cases hk : ev.type = EV_KEY
    · obtain ⟨r, w1, hcall⟩ := process_key_total env fuel ctx ev.code ev.value w hfuel hr
      obtain ⟨calls, w', hd⟩ := ih w1
      exact ⟨(ev.code, ev.value, r) :: calls, w', by
        simp only [drain_device, hk, if_true, hcall, hd]⟩
    · obtain ⟨calls, w', hd⟩ := ih w
      exact ⟨calls, w', by simp only [drain_device, hk, if_false, hd]⟩

/-- The loop over the ready descriptors: the same, for the events of all of
them, descriptor after descriptor. -/
theorem drain_ready_spec (env : Env) (fuel : Nat) (ctx : vkbd_context_t) :
    ∀ (es : List (Int × List input_event)) (w : World) (calls : List (Nat × Int × Int))
      (w' : World),
      drain_ready env fuel ctx es w = some (calls, w') →
      calls.map (fun c => (c.1, c.2.1)) = forwarded (es.map fun e => e.2).flatten ∧
        process_keys env fuel ctx (forwarded (es.map fun e => e.2).flatten) w =
          some (calls.map (fun c => c.2.2), w') := by
  intro es
  induction es with
  | nil =>
    intro w calls w' h
    simp only [drain_ready, Option.some.injEq, Prod.mk.injEq] at h
    obtain ⟨h1, h2⟩ := h
    subst h1 h2
    exact ⟨rfl, rfl⟩
  | cons e es ih =>
    intro w calls w' h
    cases hd : drain_device env fuel ctx e.2 w with
    | none =>
      simp only [drain_ready, hd] at h
      exact absurd h (by simp)
    | some p =>
      obtain ⟨c1, w1⟩ := p
      cases hrest : drain_ready env fuel ctx es w1 with
      | none =>
        simp only [drain_ready, hd, hrest] at h
        exact absurd h (by simp)
      | some q =>
        obtain ⟨c2, w2⟩ := q
        simp only [drain_ready, hd, hrest, Option.some.injEq, Prod.mk.injEq] at h
        obtain ⟨h1, h2⟩ := h
        subst h1 h2
        obtain ⟨hc1, hp1⟩ := drain_device_spec env fuel ctx e.2 w c1 w1 hd
        obtain ⟨hc2, hp2⟩ := ih w1 c2 w2 hrest
        simp only [List.map_cons, List.flatten_cons, forwarded_append, List.map_append]
        exact ⟨by rw [hc1, hc2], process_keys_append env fuel ctx _ _ w w1 w2 _ _ hp1 hp2⟩

theorem drain_ready_total (env : Env) (fuel : Nat) (ctx : vkbd_context_t)
    (hfuel : 101 ≤ fuel) (hr : observers_return env fuel) :
    ∀ (es : List (Int × List input_event)) (w : World),
      ∃ calls w', drain_ready env fuel ctx es w = some (calls, w') := by
  intro es
  induction es with
  | nil => intro w; exact ⟨[], w, rfl⟩
  | cons e es ih =>
    intro w
    obtain ⟨c1, w1, hd⟩ := drain_device_total env fuel ctx hfuel hr e.2 w
    obtain ⟨c2, w2, hrest⟩ := ih w1
    exact ⟨c1 ++ c2, w2, by simp only [drain_ready, hd, hrest]⟩

/-- The `while` loop of `event_listener_run`, entered with `running` set: the
calls it made are the key events among the events read, in order, and it
leaves the world of these calls made one after the other, with one closing
message. -/
theorem run_loop_spec (env : Env) (fuel : Nat) (ctx : vkbd_context_t) :
    ∀ (ks : List Wakeup) (l : event_listener_t) (w : World) (r : Int) (l' : event_listener_t)
      (w' : World) (calls : List (Nat × Int × Int)),
      l.running = true →
      run_loop env fuel ctx ks l w = some (r, l', w', calls) →
      calls.map (fun c => (c.1, c.2.1)) = forwarded (events_read ks) ∧
        ∃ w2, process_keys env fuel ctx (forwarded (events_read ks)) w =
            some (calls.map (fun c => c.2.2), w2) ∧
          ((r = 0 ∧ w' = w2.emit (Effect.printf "Event listener stopped\n")) ∨
            (r = -1 ∧
              w' = w2.emit (Effect.perror "event_listener_run: epoll_wait failed"))) := by
  intro ks
  induction ks with
  | nil => intro l w r l' w' calls _ h; simp [run_loop] at h
  | cons k ks ih =>
    intro l w r l' w' calls hrun h
    simp only [run_loop] at h
    by_cases hs : k.stop_requested = true
    · simp only [hs, if_true, event_listener_stop, Bool.not_false, Option.some.injEq,
        Prod.mk.injEq] at h
      obtain ⟨hr, _, hw, hc⟩ := h
      subst hr hw hc
      have hev : events_read (k :: ks) = [] := by simp only [events_read, hs, if_true]
      rw [hev]
      exact ⟨rfl, w, rfl, Or.inl ⟨rfl, rfl⟩⟩
    · simp only [hs, Bool.false_eq_true, if_false, hrun, Bool.not_true] at h
      by_cases hn : k.nfds < 0
      · rw [if_pos hn] at h
        by_cases he : k.errno = EINTR
        · rw [if_pos he] at h
          have hev : events_read (k :: ks) = events_read ks := by
            simp only [events_read, hs, Bool.false_eq_true, if_false, hn, if_true, he]
          rw [hev]
          exact ih l w r l' w' calls hrun h
        · rw [if_neg he] at h
          simp only [Option.some.injEq, Prod.mk.injEq] at h
          obtain ⟨hr, _, hw, hc⟩ := h
          subst hr hw hc
          have hev : events_read (k :: ks) = [] := by
            simp only [events_read, hs, Bool.false_eq_true, if_false, hn, if_true, he]
          rw [hev]
          exact ⟨rfl, w, rfl, Or.inr ⟨rfl, rfl⟩⟩
      · rw [if_neg hn] at h
        cases hd : drain_ready env fuel ctx (k.ready.take k.nfds.toNat) w with
        | none => simp [hd] at h
        | some d =>
          obtain ⟨c1, w1⟩ := d
          simp only [hd] at h
          cases hrec : run_loop env fuel ctx ks l w1 with
          | none => simp [hrec] at h
          | some x =>
            obtain ⟨r2, l2, w3, c2⟩ := x
            simp only [hrec, Option.some.injEq, Prod.mk.injEq] at h
            obtain ⟨hr, _, hw, hc⟩ := h
            subst hr hw hc
            obtain ⟨hc1, hp1⟩ := drain_ready_spec env fuel ctx _ w c1 w1 hd
            obtain ⟨hc2, w2, hp2, hend⟩ := ih l w1 r2 l2 w3 c2 hrun hrec
            have hev : events_read (k :: ks) =
                ((k.ready.take k.nfds.toNat).map fun e => e.2).flatten ++ events_read ks := by
              simp only [events_read, hs, Bool.false_eq_true, if_false, hn]
            rw [hev, forwarded_append, List.map_append, List.map_append]
            exact ⟨by rw [hc1, hc2], w2,
              process_keys_append env fuel ctx _ _ w w1 w2 _ _ hp1 hp2, hend⟩

theorem run_loop_total (env : Env) (fuel : Nat) (ctx : vkbd_context_t)
    (hfuel : 101 ≤ fuel) (hr : observers_return env fuel) :
    ∀ (ks : List Wakeup) (l : event_listener_t) (w : World),
      l.running = true → loop_ends ks = true →
      ∃ r l' w' calls, run_loop env fuel ctx ks l w = some (r, l', w', calls) := by
  intro ks
  induction ks with
  | nil => intro l w _ h; simp [loop_ends] at h
  | cons k ks ih =>
    intro l w hrun hends
    by_cases hs : k.stop_requested = true
    · refine ⟨0, event_listener_stop l, w.emit (Effect.printf "Event listener stopped\n"), [],
        ?_⟩
      simp only [run_loop, hs, if_true, event_listener_stop, Bool.not_false]
    · by_cases hn : k.nfds < 0
      · by_cases he : k.errno = EINTR
        · have hends1 : loop_ends ks = true := by
            simpa only [loop_ends, hs, Bool.false_eq_true, if_false, hn, if_true, he] using hends
          obtain ⟨r, l', w', calls, h⟩ := ih l w hrun hends1
          refine ⟨r, l', w', calls, ?_⟩
          simp only [run_loop, hs, Bool.false_eq_true, if_false, hrun, Bool.not_true, hn,
            if_true, he, h]
        · refine ⟨-1, l,
            w.emit (Effect.perror "event_listener_run: epoll_wait failed"), [], ?_⟩
          simp only [run_loop, hs, Bool.false_eq_true, if_false, hrun, Bool.not_true, hn,
            if_true, he]
      · have hends1 : loop_ends ks = true := by
          simpa only [loop_ends, hs, Bool.false_eq_true, if_false, hn] using hends
        obtain ⟨c1, w1, hd⟩ := drain_ready_total env fuel ctx hfuel hr
          (k.ready.take k.nfds.toNat) w
        obtain ⟨r, l', w', calls, h⟩ := ih l w1 hrun hends1
        refine ⟨r, l', w', c1 ++ calls, ?_⟩
        simp only [run_loop, hs, Bool.false_eq_true, if_false, hrun, Bool.not_true, hn, hd, h]

/-- C14: for every listener with a device and every sequence of loop turns,
the calls of `vkbd_process_key` that a run of `event_listener_run` makes are
exactly the events of type `EV_KEY` among the events it reads, in the order
read, each with its code and value; an event of another type causes no call.
The world the run leaves is that of these calls made one after the other,
whatever each of them returns, followed by one closing message, and the
results of the calls are theirs. The run returns whenever the observers
return and the turns hold one that ends the loop. -/
theorem run_forwards_key_events (env : Env) (fuel : Nat) (ctx : vkbd_context_t)
    (l : event_listener_t) (ks : List Wakeup) (w : World)
    (hdev : l.device_count ≠ 0) (hfuel : 101 ≤ fuel) :
    (∀ (r : Int) (l' : event_listener_t) (w' : World) (calls : List (Nat × Int × Int)),
      event_listener_run env fuel ctx l ks w = some (r, l', w', calls) →
      calls.map (fun c => (c.1, c.2.1)) = forwarded (events_read ks) ∧
        ∃ w2, process_keys env fuel ctx (forwarded (events_read ks)) (run_enter l w).2 =
            some (calls.map (fun c => c.2.2), w2) ∧
          ((r = 0 ∧ w' = w2.emit (Effect.printf "Event listener stopped\n")) ∨
            (r = -1 ∧
              w' = w2.emit (Effect.perror "event_listener_run: epoll_wait failed")))) ∧
    (observers_return env fuel → loop_ends ks = true →
      ∃ r l' w' calls, event_listener_run env fuel ctx l ks w = some (r, l', w', calls)) := by
  constructor
  · intro r l' w' calls h
    simp only [event_listener_run, hdev, if_false] at h
    exact run_loop_spec env fuel ctx ks _ _ r l' w' calls rfl h
  · intro hr hends
    simp only [event_listener_run, hdev, if_false]
    exact run_loop_total env fuel ctx hfuel hr ks _ _ rfl hends

/-- C14, at a concrete input: two turns deliver a press of key 30 and the
`EV_SYN` of the physical device each, while the virtual device is gone and
`remap_callback` is registered; both key events are forwarded, each call
returns -1, and the `EV_SYN` events cause no call. -/
theorem run_forwards_key_events_witness :
    ∃ l' w', event_listener_run gone_remap_env 101 one_callback_ctx one_keyboard_listener
        [key_wakeup, timeout_wakeup, key_wakeup, stop_wakeup] World.init =
        some (0, l', w', [(30, 1, -1), (30, 1, -1)]) ∧
      forwarded (events_read [key_wakeup, timeout_wakeup, key_wakeup, stop_wakeup]) =
        [(30, 1), (30, 1)] := by
  obtain ⟨hspec, htotal⟩ := run_forwards_key_events gone_remap_env 101 one_callback_ctx
    one_keyboard_listener [key_wakeup, timeout_wakeup, key_wakeup, stop_wakeup] World.init
    (by decide) (by decide)
  obtain ⟨r, l', w', calls, h⟩ := htotal
    (Or.inr fun s => ⟨0, by decide, fun hh => by
      have h19 : (19 : Nat) = EINTR := hh.2
      exact absurd h19 (by decide)⟩) (by decide)
  have hval : (event_listener_run gone_remap_env 101 one_callback_ctx one_keyboard_listener
      [key_wakeup, timeout_wakeup, key_wakeup, stop_wakeup] World.init).map
        (fun x => (x.1, x.2.2.2)) = some (0, [(30, 1, -1), (30, 1, -1)]) := by decide
  rw [h] at hval
  simp only [Option.map_some', Option.some.injEq, Prod.mk.injEq] at hval
  obtain ⟨h1, h2⟩ := hval
  subst h1 h2
  exact ⟨l', w', h, by decide⟩

/-! ## C15: the running flag -/

theorem run_loop_result (env : Env) (fuel : Nat) (ctx : vkbd_context_t) :
    ∀ (ks : List Wakeup) (l : event_listener_t) (w : World) (r : Int) (l' : event_listener_t)
      (w' : World) (calls : List (Nat × Int × Int)),
      run_loop env fuel ctx ks l w = some (r, l', w', calls) →
      ((r = 0 ∧ l'.running = false) ∨ (r = -1 ∧ l'.running = true)) ∧
        l' = { l with running := l'.running } := by
  intro ks
  induction ks with
  | nil => intro l w r l' w' calls h; simp [run_loop] at h
  | cons k ks ih =>
    intro l w r l' w' calls h
    have hl1 : ∀ l1 : event_listener_t,
        l1 = (if k.stop_requested = true then event_listener_stop l else l) →
        l1 = { l with running := l1.running } := by
      intro l1 h1
      subst h1
      split_ifs <;> rfl
    have hback : ∀ l1 l2 : event_listener_t, l1 = { l with running := l1.running } →
        l2 = { l1 with running := l2.running } → l2 = { l with running := l2.running } := by
      intro l1 l2 h1 h2
      rw [h2, h1]
    simp only [run_loop] at h
    generalize hg : (if k.stop_requested = true then event_listener_stop l else l) = l1 at h
    have hl := hl1 l1 hg.symm
    cases hrun : l1.running
    · simp only [hrun, Bool.not_false, if_true, Option.some.injEq, Prod.mk.injEq] at h
      obtain ⟨hr, hl2, _, _⟩ := h
      subst hr
      subst hl2
      exact ⟨Or.inl ⟨rfl, hrun⟩, hl⟩
    · simp only [hrun, Bool.not_true, Bool.false_eq_true, if_false] at h
      by_cases hn : k.nfds < 0
      · rw [if_pos hn] at h
        by_cases he : k.errno = EINTR
        · rw [if_pos he] at h
          obtain ⟨h4, h5⟩ := ih _ _ _ _ _ _ h
          exact ⟨h4, hback l1 l' hl h5⟩
        · rw [if_neg he] at h
          simp only [Option.some.injEq, Prod.mk.injEq] at h
          obtain ⟨hr, hl2, _, _⟩ := h
          subst hr
          subst hl2
          exact ⟨Or.inr ⟨rfl, hrun⟩, hl⟩
      · rw [if_neg hn] at h
        cases hd : drain_ready env fuel ctx (k.ready.take k.nfds.toNat) w with
        | none => simp [hd] at h
        | some d =>
          obtain ⟨c1, w1⟩ := d
          simp only [hd] at h
          cases hrec : run_loop env fuel ctx ks l1 w1 with
          | none => simp [hrec] at h
          | some x =>
            obtain ⟨r2, l2, w2, c2⟩ := x
            simp only [hrec, Option.some.injEq, Prod.mk.injEq] at h
            obtain ⟨hr, hl2, _, _⟩ := h
            subst hr
            subst hl2
            obtain ⟨h4, h5⟩ := ih _ _ _ _ _ _ hrec
            exact ⟨h4, hback l1 l2 hl h5⟩

/-- C15, as stated, fails: a listener is run and stopped (the flag went to
true and back to false), and a later call of `event_listener_run` on it, with
no reinitialisation, sets the flag to true again: the second run forwards a
key press, and a run that ends on a failed `epoll_wait` returns with the flag
still true. -/
theorem listener_runs_again_after_stop :
    (event_listener_run good_env 101 fresh_ctx one_keyboard_listener
        [timeout_wakeup, stop_wakeup] World.init).map (fun r => (r.1, r.2.1.running)) =
      some (0, false) ∧
    ((event_listener_run good_env 101 fresh_ctx one_keyboard_listener
        [timeout_wakeup, stop_wakeup] World.init).map
      fun r => (run_enter r.2.1 r.2.2.1).1.running) = some true ∧
    ((event_listener_run good_env 101 fresh_ctx one_keyboard_listener
        [timeout_wakeup, stop_wakeup] World.init).bind fun r =>
        event_listener_run good_env 101 fresh_ctx r.2.1 [key_wakeup, stop_wakeup] r.2.2.1).map
      (fun r => (r.1, r.2.1.running, r.2.2.2)) = some (0, false, [(30, 1, 0)]) ∧
    ((event_listener_run good_env 101 fresh_ctx one_keyboard_listener
        [timeout_wakeup, stop_wakeup] World.init).bind fun r =>
        event_listener_run good_env 101 fresh_ctx r.2.1 [failed_wakeup] r.2.2.1).map
      (fun r => (r.1, r.2.1.running)) = some (-1, true) := by
  decide

/-- C15 (amended): the running flag is false after `event_listener_init`;
`event_listener_stop` and `event_listener_destroy` set it to false,
`event_listener_add_device` and `event_listener_auto_detect` leave it as it
is; `event_listener_run` is the only function that sets it to true, and it
does so on every call made with `device_count ≠ 0`, whatever the flag was and
whether or not the listener has run before; a run that returns 0 returns with
the flag false, a run that returns -1 from its loop with the flag true, and a
run changes nothing else in the listener. -/
theorem running_flag_transitions (env : Env) (fuel : Nat) (ctx : vkbd_context_t)
    (long_bits : Nat) (l : event_listener_t) (w : World) (hwf : l.wf) :
    (∀ (c : Nat) (r : Int), c ≠ 0 → (event_listener_init l c r w).2.1.running = false) ∧
    (event_listener_stop l).running = false ∧
    (event_listener_destroy l w).1.running = false ∧
    (∀ (path : String) (a : DeviceAnswer),
      (event_listener_add_device long_bits l path a w).2.1.running = l.running) ∧
    (∀ (dir : Option (List (String × DeviceAnswer))),
      (event_listener_auto_detect long_bits l dir w).2.1.running = l.running) ∧
    (l.device_count = 0 → ∀ (ks : List Wakeup),
      ∃ w', event_listener_run env fuel ctx l ks w = some (-1, l, w', [])) ∧
    (l.device_count ≠ 0 → ∀ (ks : List Wakeup),
      event_listener_run env fuel ctx l ks w =
        run_loop env fuel ctx ks (run_enter l w).1 (run_enter l w).2 ∧
      (run_enter l w).1 = { l with running := true }) ∧
    (∀ (ks : List Wakeup) (r : Int) (l' : event_listener_t) (w' : World)
      (calls : List (Nat × Int × Int)),
      l.device_count ≠ 0 →
      event_listener_run env fuel ctx l ks w = some (r, l', w', calls) →
      ((r = 0 ∧ l'.running = false) ∨ (r = -1 ∧ l'.running = true)) ∧
        l' = { l with running := l'.running }) := by
  refine ⟨?_, rfl, (destroy_frame l w).2.2, ?_, ?_, ?_, ?_, ?_⟩
  · intro c r hc
    exact (init_frame l c r w hc).2.2
  · intro path a
    exact (add_device_frame long_bits l path a w).1
  · intro dir
    exact (auto_detect_frame long_bits l dir w hwf.2).2.2
  · intro h0 ks
    exact ⟨w.emit (Effect.fprintf_stderr "event_listener_run: No devices to monitor\n"),
      by simp only [event_listener_run, h0, if_true]⟩
  · intro hne ks
    exact ⟨by simp only [event_listener_run, hne, if_false], rfl⟩
  · intro ks r l' w' calls hne h
    simp only [event_listener_run, hne, if_false] at h
    obtain ⟨h1, h2⟩ := run_loop_result env fuel ctx ks _ _ _ _ _ _ h
    refine ⟨h1, ?_⟩
    rw [h2]
    rfl

/-- C15 (amended), at a concrete input: the listener with one keyboard is run
and stopped: the run returns 0 with the flag false and the rest of the
listener as it was. -/
theorem running_flag_transitions_witness :
    ∃ l' w' calls, event_listener_run good_env 101 fresh_ctx one_keyboard_listener
        [timeout_wakeup, stop_wakeup] World.init = some (0, l', w', calls) ∧
      l'.running = false ∧ l' = { one_keyboard_listener with running := l'.running } := by
  have h := (running_flag_transitions good_env 101 fresh_ctx 64 one_keyboard_listener
    World.init (by decide)).2.2.2.2.2.2.2
  cases hrun : event_listener_run good_env 101 fresh_ctx one_keyboard_listener
      [timeout_wakeup, stop_wakeup] World.init with
  | none =>
    have hv : (event_listener_run good_env 101 fresh_ctx one_keyboard_listener
        [timeout_wakeup, stop_wakeup] World.init).map (fun r => r.1) = some 0 := by decide
    rw [hrun] at hv
    exact absurd hv (by decide)
  | some x =>
    obtain ⟨r, l', w', calls⟩ := x
    have hv : (event_listener_run good_env 101 fresh_ctx one_keyboard_listener
        [timeout_wakeup, stop_wakeup] World.init).map (fun r => r.1) = some 0 := by decide
    rw [hrun] at hv
    simp only [Option.map_some', Option.some.injEq] at hv
    subst hv
    obtain ⟨h1, h2⟩ := h _ _ _ _ _ (by decide) hrun
    rcases h1 with ⟨_, hf⟩ | ⟨hr, _⟩
    · exact ⟨l', w', calls, rfl, hf, h2⟩
    · exact absurd hr (by decide)

end Vkbd
